import Mathlib

/-! Formal model of the deals-aggregator server (src/server/app.py).
    The rendered HTML document is modelled as a tree of element and text
    nodes (the BeautifulSoup/lxml parse of the input markup); the string
    and regular-expression operations of the source are implemented as
    executable functions over lists of characters.  Character classes are
    modelled over the alphabet the scraped sites use: ASCII, the three
    currency glyphs and Hebrew letters. -/

namespace Deals

/-- Whitespace for Python's regex class `\s` and `str.strip`, restricted
to the ASCII range (the scraped markup has no exotic space characters). -/
def pySpace (c : Char) : Bool :=
  c = ' ' || c = '\t' || c = '\n' || c = '\r' || c = '\x0b' || c = '\x0c'

/-- ASCII decimal digit: Python regex `\d` and `str.isdigit` over the
scraped alphabet. -/
def pyDigit (c : Char) : Bool := '0' ≤ c && c ≤ '9'

/-- The three currency glyphs used by `price_regex` (app.py line 69). -/
def currencyChar (c : Char) : Bool := c = '₪' || c = '$' || c = '€'

/-- Python regex `\w` over the scraped alphabet: ASCII alphanumerics,
underscore, and the Hebrew letters U+05D0 to U+05EA. -/
def pyWord (c : Char) : Bool :=
  ('a' ≤ c && c ≤ 'z') || ('A' ≤ c && c ≤ 'Z') || pyDigit c || c = '_' ||
  ('א' ≤ c && c ≤ 'ת')

/-- Python `str.strip` with no arguments: drop whitespace at both ends. -/
def pyStripL (l : List Char) : List Char :=
  ((l.dropWhile pySpace).reverse.dropWhile pySpace).reverse

/-- String wrapper for `pyStripL`. -/
def pyStrip (s : String) : String := String.mk (pyStripL s.data)

/-- Collapse every whitespace run to a single space (regex `\s+` → a
single space); the flag records whether the previous kept character
closed a whitespace run. -/
def collapseWs : List Char → Bool → List Char
  | [], _ => []
  | c :: cs, prevSpace =>
    if pySpace c then
      if prevSpace then collapseWs cs true else ' ' :: collapseWs cs true
    else c :: collapseWs cs false

/-- `normalize_whitespace` (app.py lines 87-88): collapse whitespace runs
to single spaces, then strip. -/
def normalize_whitespace (s : String) : String :=
  pyStrip (String.mk (collapseWs s.data false))

/-- Python `str.lower` over the scraped alphabet (only ASCII letters have
case there). -/
def pyLower (s : String) : String := String.mk (s.data.map Char.toLower)

/-- Substring containment over character lists (Python's `pat in s`). -/
def containsSubL (pat : List Char) : List Char → Bool
  | [] => pat.isPrefixOf ([] : List Char)
  | c :: cs => pat.isPrefixOf (c :: cs) || containsSubL pat cs

/-- Python's `pat in s` on strings. -/
def containsSub (s pat : String) : Bool := containsSubL pat.data s.data

/-- Python's `s.startswith(pre)`. -/
def strStarts (s pre : String) : Bool := pre.data.isPrefixOf s.data

/-- Characters allowed in a URL scheme after its first letter. -/
def schemeChar (c : Char) : Bool :=
  ('a' ≤ c && c ≤ 'z') || ('A' ≤ c && c ≤ 'Z') || pyDigit c ||
  c = '+' || c = '-' || c = '.'

/-- Scan the remainder of a candidate scheme up to the colon. -/
def splitSchemeAux : List Char → List Char → Option (List Char × List Char)
  | [], _ => none
  | c :: cs, acc =>
    if c = ':' then some (acc.reverse, cs)
    else if schemeChar c then splitSchemeAux cs (c :: acc)
    else none

/-- Split `scheme:rest` when the string begins with a URL scheme as
`urllib.parse` recognizes one (a letter, then letters, digits, `+`,
`-`, `.`, then a colon). -/
def splitScheme : List Char → Option (List Char × List Char)
  | [] => none
  | c :: cs =>
    if ('a' ≤ c && c ≤ 'z') || ('A' ≤ c && c ≤ 'Z') then splitSchemeAux cs [c]
    else none

/-- Split a leading `//netloc` off a scheme-less URL remainder, returning
the kept prefix (with the two slashes) and what follows the netloc. -/
def splitNetloc (l : List Char) : List Char × List Char :=
  match l with
  | '/' :: '/' :: rest =>
    let net := rest.takeWhile (fun c => !(c = '/' || c = '?' || c = '#'))
    ('/' :: '/' :: net, rest.drop net.length)
  | _ => ([], l)

/-- Directory prefix of a URL path: everything through the final slash,
or a single slash when the path contains none. -/
def dirOfPath (l : List Char) : List Char :=
  if l.contains '/' then (l.reverse.dropWhile (fun c => !(c = '/'))).reverse
  else ['/']

/-- Model of `urllib.parse.urljoin` for the URL shapes the scraper meets:
an absolute reference is returned unchanged, a network-path reference
takes the base scheme, an absolute path takes the base scheme and host,
and a relative path is appended to the base directory.  Dot-segment
normalization and same-scheme relative references are not modelled; every
use in app.py is either gated afterwards by `is_allowed_host` or only
needs the result to keep the base's scheme prefix. -/
def urljoinL (base rel : List Char) : List Char :=
  if (splitScheme rel).isSome then rel
  else
    let schemeParts :=
      match splitScheme base with
      | some (sch, rest) => (sch ++ [':'], rest)
      | none => (([] : List Char), base)
    let schemePre := schemeParts.1
    let afterScheme := schemeParts.2
    match rel with
    | '/' :: '/' :: _ => schemePre ++ rel
    | '/' :: _ =>
      let netPre := (splitNetloc afterScheme).1
      schemePre ++ netPre ++ rel
    | _ =>
      let split := splitNetloc afterScheme
      let pathOnly := split.2.takeWhile (fun c => !(c = '?' || c = '#'))
      schemePre ++ split.1 ++ dirOfPath pathOnly ++ rel

/-- String wrapper for `urljoinL`. -/
def urljoin (base rel : String) : String := String.mk (urljoinL base.data rel.data)

/-- The `netloc` component of `urllib.parse.urlparse`: present only after
a double slash following the optional scheme. -/
def netlocOf (l : List Char) : List Char :=
  let rest :=
    match splitScheme l with
    | some sr => sr.2
    | none => l
  match rest with
  | '/' :: '/' :: r => r.takeWhile (fun c => !(c = '/' || c = '?' || c = '#'))
  | _ => []

/-- `WHITELIST_HOSTS` (app.py lines 58-67). -/
def WHITELIST_HOSTS : List String :=
  ["deal4real.co.il", "www.deal4real.co.il", "zuzu.deals", "www.zuzu.deals",
   "buywithus.org", "www.buywithus.org", "il.bee.deals", "www.il.bee.deals"]

/-- `is_allowed_host` (app.py lines 90-95): the lower-cased host of the
URL must be in the fixed allowlist (`urlparse` does not raise here). -/
def is_allowed_host (url : String) : Bool :=
  WHITELIST_HOSTS.contains (pyLower (String.mk (netlocOf url.data)))

/-- `resolve_url` (app.py lines 97-119): empty href gives nothing; an
absolute http(s) href passes through when external hosts are allowed and
is otherwise gated by the allowlist; any other href is joined with the
base URL and gated the same way. -/
def resolve_url (base_url href : String) (allow_external : Bool) : Option String :=
  if href = "" then none
  else if strStarts href "http://" || strStarts href "https://" then
    if allow_external then some href
    else if is_allowed_host href then some href else none
  else
    let absolute := urljoin base_url href
    if allow_external then some absolute
    else if is_allowed_host absolute then some absolute else none

/-- A node of the parsed HTML document: an element with its tag, raw
attribute list and children, or a text node.  This is the tree
BeautifulSoup hands to `extract_items`; the html-to-tree parse itself
(lxml) stays outside the model. -/
inductive Node where
  | text (s : String)
  | elem (tag : String) (attrs : List (String × String)) (children : List Node)

/-- The raw attribute list of a node (empty for text nodes). -/
def Node.attrsOf : Node → List (String × String)
  | .text _ => []
  | .elem _ attrs _ => attrs

/-- The tag of an element node. -/
def Node.tagOf : Node → Option String
  | .text _ => none
  | .elem t _ _ => some t

/-- Whether the node is an element. -/
def Node.isElem : Node → Bool
  | .text _ => false
  | .elem _ _ _ => true

/-- BeautifulSoup's `node.get(name)`: the attribute's value when present. -/
def Node.getAttr (n : Node) (name : String) : Option String :=
  n.attrsOf.lookup name

/-- Split a character list on whitespace runs, dropping empty pieces
(how BeautifulSoup turns the `class` attribute into a token list). -/
def splitWsAux : List Char → List Char → List (List Char)
  | [], acc => if acc.isEmpty then [] else [acc.reverse]
  | c :: cs, acc =>
    if pySpace c then
      if acc.isEmpty then splitWsAux cs [] else acc.reverse :: splitWsAux cs []
    else splitWsAux cs (c :: acc)

/-- The class tokens of a node. -/
def classesOf (n : Node) : List String :=
  match n.getAttr "class" with
  | some v => (splitWsAux v.data []).map String.mk
  | none => []

/-- All text-node strings below a node, in document order. -/
def textsOf : Node → List String
  | .text s => [s]
  | .elem _ _ children => goL children
where goL : List Node → List String
  | [] => []
  | c :: cs => textsOf c ++ goL cs

/-- BeautifulSoup `get_text()`: the raw concatenation of the text below. -/
def getTextRaw (n : Node) : String := String.mk ((textsOf n).map String.data).flatten

/-- The stripped, non-empty text pieces below a node. -/
def strippedTexts (n : Node) : List String :=
  ((textsOf n).map pyStrip).filter (fun s => s ≠ "")

/-- BeautifulSoup `get_text(strip=True)`. -/
def getTextStrip (n : Node) : String :=
  String.mk ((strippedTexts n).map String.data).flatten

/-- Join character lists with a separator. -/
def joinWith (sep : List Char) : List (List Char) → List Char
  | [] => []
  | [x] => x
  | x :: y :: xs => x ++ sep ++ joinWith sep (y :: xs)

/-- BeautifulSoup `get_text(" ", strip=True)`. -/
def getTextSS (n : Node) : String :=
  String.mk (joinWith [' '] ((strippedTexts n).map String.data))

/-- A located node: the node itself and its ancestor chain, nearest
ancestor first and the document root last — BeautifulSoup's `.parents`. -/
abbrev LNode := Node × List Node

/-- All descendants of a node (itself excluded) with their ancestor
chains, in document order. -/
def descendantsL : Node → List Node → List LNode
  | .text _, _ => []
  | .elem t a cs, anc => goL cs (Node.elem t a cs :: anc)
where goL : List Node → List Node → List LNode
  | [], _ => []
  | c :: cs, anc => (c, anc) :: descendantsL c anc ++ goL cs anc

/-- BeautifulSoup `find` with a node predicate: the first matching
element below the node, in document order. -/
def findDesc (n : LNode) (p : Node → Bool) : Option Node :=
  (((descendantsL n.1 n.2).map Prod.fst).filter
    (fun d => d.isElem && p d)).head?

/-- BeautifulSoup `find_all` with a node predicate. -/
def findAllDesc (n : LNode) (p : Node → Bool) : List Node :=
  ((descendantsL n.1 n.2).map Prod.fst).filter (fun d => d.isElem && p d)

/-- One compound CSS selector: optional tag, required classes, required
attributes, and required attribute-value substrings (`[attr*=v]`). -/
structure SimpleSel where
  tag : Option String
  classes : List String
  attrEx : List String
  attrSub : List (String × String)

/-- Whether a node matches one compound selector. -/
def matchesSimple (n : Node) (s : SimpleSel) : Bool :=
  n.isElem &&
  (match s.tag with
   | none => true
   | some t => n.tagOf = some t) &&
  s.classes.all (fun c => (classesOf n).contains c) &&
  s.attrEx.all (fun a => (n.getAttr a).isSome) &&
  s.attrSub.all (fun av =>
    match n.getAttr av.1 with
    | some v => containsSub v av.2
    | none => false)

/-- One comma-alternative of a selector: the target compound selector
plus required ancestors, listed from innermost outward (the descendant
combinator). -/
abbrev SelChain := SimpleSel × List SimpleSel

/-- A CSS selector: its comma-separated alternatives. -/
abbrev Sel := List SelChain

/-- Match the required ancestor compounds against the ancestor chain
(nearest first), in order. -/
def ancChainMatch : List Node → List SimpleSel → Bool
  | _, [] => true
  | [], _ :: _ => false
  | a :: as, r :: rs =>
    if matchesSimple a r then ancChainMatch as rs else ancChainMatch as (r :: rs)

/-- Whether a located node matches a selector. -/
def matchSel (d : LNode) (sel : Sel) : Bool :=
  sel.any (fun ch => matchesSimple d.1 ch.1 && ancChainMatch d.2 ch.2)

/-- BeautifulSoup `select`: all matching descendants in document order. -/
def select (n : LNode) (sel : Sel) : List LNode :=
  (descendantsL n.1 n.2).filter (fun d => matchSel d sel)

/-- BeautifulSoup `select_one`: the first matching descendant. -/
def selectOne (n : LNode) (sel : Sel) : Option LNode := (select n sel).head?

/-- Selector `.product-card-wrapper .product-card, .product-card`
(registry entry for deal4real). -/
def selProductCard : Sel :=
  [(⟨none, ["product-card"], [], []⟩, [⟨none, ["product-card-wrapper"], [], []⟩]),
   (⟨none, ["product-card"], [], []⟩, [])]

/-- Selector `.col_item` (registry entry for zuzu and buywithus). -/
def selColItem : Sel := [(⟨none, ["col_item"], [], []⟩, [])]

/-- Selector `.pin.nfDealItemsPin` (registry entry for beedeals). -/
def selPinItem : Sel := [(⟨none, ["pin", "nfDealItemsPin"], [], []⟩, [])]

/-- Selector `.product-pricing-wrapper` (app.py line 127). -/
def selPricingWrapper : Sel := [(⟨none, ["product-pricing-wrapper"], [], []⟩, [])]

/-- Selector `.rh_regular_price` (app.py lines 181, 194). -/
def selRhRegularPrice : Sel := [(⟨none, ["rh_regular_price"], [], []⟩, [])]

/-- Selector `.price_count` (app.py line 181). -/
def selPriceCount : Sel := [(⟨none, ["price_count"], [], []⟩, [])]

/-- Selector `.price_for_grid .rh_regular_price` (app.py line 194). -/
def selPriceForGridRh : Sel :=
  [(⟨none, ["rh_regular_price"], [], []⟩, [⟨none, ["price_for_grid"], [], []⟩])]

/-- Selector `.re-ribbon-badge, .badge, [class*='discount'],
[class*='percent']` (app.py line 202). -/
def selBadge : Sel :=
  [(⟨none, ["re-ribbon-badge"], [], []⟩, []),
   (⟨none, ["badge"], [], []⟩, []),
   (⟨none, [], [], [("class", "discount")]⟩, []),
   (⟨none, [], [], [("class", "percent")]⟩, [])]

/-- Selector `.price` (app.py line 223). -/
def selPrice : Sel := [(⟨none, ["price"], [], []⟩, [])]

/-- The eleven deal4real title selectors (app.py lines 262-266). -/
def d4rTitleSelectors : List Sel :=
  [[(⟨none, ["product-title"], [], []⟩, [])],
   [(⟨none, ["title"], [], []⟩, [])],
   [(⟨none, ["product-name"], [], []⟩, [])],
   [(⟨none, ["name"], [], []⟩, [])],
   [(⟨none, [], ["data-title"], []⟩, [])],
   [(⟨none, [], ["data-product-title"], []⟩, [])],
   [(⟨none, [], ["data-name"], []⟩, [])],
   [(⟨some "h2", ["title"], [], []⟩, [])],
   [(⟨some "h3", ["title"], [], []⟩, [])],
   [(⟨none, ["card-title"], [], []⟩, [])],
   [(⟨none, ["item-title"], [], []⟩, [])]]

/-- Selector `.pinMenuCenter` (app.py line 298). -/
def selPinMenuCenter : Sel := [(⟨none, ["pinMenuCenter"], [], []⟩, [])]

/-- Selector `.pinPrice` (app.py line 383). -/
def selPinPrice : Sel := [(⟨none, ["pinPrice"], [], []⟩, [])]

/-- Selector `.pinPrice a` (app.py line 548). -/
def selPinPriceA : Sel :=
  [(⟨some "a", [], [], []⟩, [⟨none, ["pinPrice"], [], []⟩])]

/-- Selector `.image_holder` (app.py line 481). -/
def selImageHolder : Sel := [(⟨none, ["image_holder"], [], []⟩, [])]

/-- Selector `.product-image-wrapper` (app.py lines 438, 443, 451). -/
def selProductImageWrapper : Sel :=
  [(⟨none, ["product-image-wrapper"], [], []⟩, [])]

/-- Selector `.topHolder` (app.py line 563). -/
def selTopHolder : Sel := [(⟨none, ["topHolder"], [], []⟩, [])]

/-- Python truthiness of an optional string: `None` and the empty string
are falsy. -/
def truthyOpt : Option String → Bool
  | none => false
  | some s => s ≠ ""

/-- BeautifulSoup `find` on a bare subtree (ancestors irrelevant). -/
def findIn (n : Node) (p : Node → Bool) : Option Node := findDesc (n, []) p

/-- Match `\d[\d,\.]*` at the head of the list, returning match and rest. -/
def matchDigitsAt : List Char → Option (List Char × List Char)
  | [] => none
  | c :: cs =>
    if pyDigit c then
      let tail := cs.takeWhile (fun d => pyDigit d || d = ',' || d = '.')
      some (c :: tail, cs.drop tail.length)
    else none

/-- Match `price_regex` = `(?:₪|\$|€)?\s?\d[\d,\.]*` (app.py line 69) at
the head of the list. -/
def matchPriceOptAt : List Char → Option (List Char × List Char)
  | [] => none
  | c :: cs =>
    if currencyChar c then
      match cs with
      | [] => none
      | d :: ds =>
        if pySpace d then (matchDigitsAt ds).map (fun m => (c :: d :: m.1, m.2))
        else (matchDigitsAt cs).map (fun m => (c :: m.1, m.2))
    else if pySpace c then (matchDigitsAt cs).map (fun m => (c :: m.1, m.2))
    else matchDigitsAt (c :: cs)

/-- Match `(?:₪|\$|€)\s?\d[\d,\.]*` (the currency-mandatory price
pattern, app.py lines 146, 242, 410, 428) at the head of the list: a
currency glyph, an optional single whitespace, then a digit run (a lone
currency glyph at the end of input matches nothing). -/
def matchPriceManAt : List Char → Option (List Char × List Char)
  | c :: d :: ds =>
    if currencyChar c then
      if pySpace d then (matchDigitsAt ds).map (fun m => (c :: d :: m.1, m.2))
      else (matchDigitsAt (d :: ds)).map (fun m => (c :: m.1, m.2))
    else none
  | _ => none

/-- Leftmost-match search: split the list into the part before the first
match, the match, and the rest (Python `re.search`). -/
def searchSplit (matchAt : List Char → Option (List Char × List Char)) :
    List Char → Option (List Char × List Char × List Char)
  | [] =>
    match matchAt [] with
    | some m => some ([], m.1, m.2)
    | none => none
  | c :: cs =>
    match matchAt (c :: cs) with
    | some m => some ([], m.1, m.2)
    | none =>
      match searchSplit matchAt cs with
      | some r => some (c :: r.1, r.2.1, r.2.2)
      | none => none

/-- First match of the currency-mandatory price pattern in a list. -/
def searchMan (l : List Char) : Option (List Char) :=
  (searchSplit matchPriceManAt l).map (fun r => r.2.1)

/-- Match `\d[\d,\.]+` (two characters minimum, beedeals price pattern
tail) at the head of the list. -/
def matchDigits2At : List Char → Option (List Char × List Char)
  | [] => none
  | c :: cs =>
    if pyDigit c then
      match cs with
      | [] => none
      | d :: ds =>
        if pyDigit d || d = ',' || d = '.' then
          let tail := ds.takeWhile (fun e => pyDigit e || e = ',' || e = '.')
          some (c :: d :: tail, ds.drop tail.length)
        else none
    else none

/-- Match `(?:₪|\$|€|USD|ILS)?\s?\d[\d,\.]+` (app.py line 391) at the
head of the list. -/
def matchBeePriceAt (l : List Char) : Option (List Char × List Char) :=
  let pre : Option (List Char × List Char) :=
    match l with
    | [] => none
    | c :: cs =>
      if currencyChar c then some ([c], cs)
      else if ['U', 'S', 'D'].isPrefixOf l then some (['U', 'S', 'D'], l.drop 3)
      else if ['I', 'L', 'S'].isPrefixOf l then some (['I', 'L', 'S'], l.drop 3)
      else none
  match pre with
  | some pr =>
    (match pr.2 with
     | [] => none
     | d :: ds =>
       if pySpace d then (matchDigits2At ds).map (fun m => (pr.1 ++ d :: m.1, m.2))
       else (matchDigits2At pr.2).map (fun m => (pr.1 ++ m.1, m.2)))
  | none =>
    match l with
    | [] => none
    | d :: ds =>
      if pySpace d then (matchDigits2At ds).map (fun m => (d :: m.1, m.2))
      else matchDigits2At l

/-- Match the discount pattern `(\d+\.?\d*%)` (app.py line 137) at the
head of the list, returning the matched group. -/
def matchPercentAt : List Char → Option (List Char)
  | [] => none
  | c :: cs =>
    if pyDigit c then
      let ds := cs.takeWhile pyDigit
      match cs.drop ds.length with
      | '%' :: _ => some (c :: ds ++ ['%'])
      | '.' :: r2 =>
        let ds2 := r2.takeWhile pyDigit
        (match r2.drop ds2.length with
         | '%' :: _ => some (c :: ds ++ '.' :: ds2 ++ ['%'])
         | _ => none)
      | _ => none
    else none

/-- First match of the discount pattern in a list. -/
def searchPercent : List Char → Option (List Char)
  | [] => none
  | c :: cs =>
    match matchPercentAt (c :: cs) with
    | some m => some m
    | none => searchPercent cs

/-- Remove every match of a pattern from a list, scanning left to right;
the fuel is the input length, enough because every step consumes at
least one character. -/
def subAllAux (matchAt : List Char → Option (List Char × List Char)) :
    Nat → List Char → List Char
  | _, [] => []
  | 0, l => l
  | fuel + 1, c :: cs =>
    match matchAt (c :: cs) with
    | some m => subAllAux matchAt fuel m.2
    | none => c :: subAllAux matchAt fuel cs

/-- Python `re.sub(pattern, "", s)` for one of the price matchers. -/
def subAllWith (matchAt : List Char → Option (List Char × List Char))
    (l : List Char) : List Char :=
  subAllAux matchAt l.length l

/-- Match `(?:₪|\$|€)\s?\d[\d,\.]*\s*\([^)]*\)` (app.py line 427) at the
head of the list. -/
def matchPriceParenAt (l : List Char) : Option (List Char × List Char) :=
  match matchPriceManAt l with
  | none => none
  | some m =>
    let sp := m.2.takeWhile pySpace
    (match m.2.drop sp.length with
     | '(' :: r =>
       let content := r.takeWhile (fun c => !(c = ')'))
       (match r.drop content.length with
        | ')' :: r2 => some (m.1 ++ sp ++ '(' :: content ++ [')'], r2)
        | _ => none)
     | _ => none)

/-- Remove every occurrence of a literal pattern (Python
`re.sub(re.escape(pat), "", s)`, app.py line 421). -/
def replaceAllAux (pat : List Char) : Nat → List Char → List Char
  | _, [] => []
  | 0, l => l
  | fuel + 1, c :: cs =>
    if !pat.isEmpty && pat.isPrefixOf (c :: cs) then
      replaceAllAux pat fuel ((c :: cs).drop pat.length)
    else c :: replaceAllAux pat fuel cs

/-- String wrapper for `replaceAllAux`. -/
def replaceAllL (l pat : List Char) : List Char := replaceAllAux pat l.length l

/-- Python regex `^\d+$` as a full-string test. -/
def digitsOnly (l : List Char) : Bool := !l.isEmpty && l.all pyDigit

/-- Python regex `^\d+[\d,\.\s]*$` (app.py line 344) as a full-string
test. -/
def numLike : List Char → Bool
  | [] => false
  | c :: cs =>
    pyDigit c && cs.all (fun d => pyDigit d || d = ',' || d = '.' || pySpace d)

/-- Python `re.sub(r'[\s\.,\-_]+', '', s)` (app.py lines 271, 364):
delete whitespace and the four punctuation characters. -/
def stripFilterChars (l : List Char) : List Char :=
  l.filter (fun c => !(pySpace c || c = '.' || c = ',' || c = '-' || c = '_'))

/-- Match `^\s*רק\s+ב\s*[-:]?\s*(?:₪|\$|€)?\s*` (app.py line 371): when
the promotional prefix is present, return the remainder after it. -/
def matchPrefix1 (l : List Char) : Option (List Char) :=
  match l.dropWhile pySpace with
  | 'ר' :: 'ק' :: r =>
    (match r with
     | [] => none
     | c :: cs =>
       if pySpace c then
         match cs.dropWhile pySpace with
         | 'ב' :: r3 =>
           let r4 := r3.dropWhile pySpace
           let r5 :=
             match r4 with
             | d :: ds => if d = '-' || d = ':' then ds else r4
             | [] => r4
           let r6 := r5.dropWhile pySpace
           let r7 :=
             match r6 with
             | e :: es => if currencyChar e then es else r6
             | [] => r6
           some (r7.dropWhile pySpace)
         | _ => none
       else none)
  | _ => none

/-- Match `^\s*החל\s+מ\s*[-:]?\s*(?:₪|\$|€)?\s*` (app.py line 373). -/
def matchPrefix2 (l : List Char) : Option (List Char) :=
  match l.dropWhile pySpace with
  | 'ה' :: 'ח' :: 'ל' :: r =>
    (match r with
     | [] => none
     | c :: cs =>
       if pySpace c then
         match cs.dropWhile pySpace with
         | 'מ' :: r3 =>
           let r4 := r3.dropWhile pySpace
           let r5 :=
             match r4 with
             | d :: ds => if d = '-' || d = ':' then ds else r4
             | [] => r4
           let r6 := r5.dropWhile pySpace
           let r7 :=
             match r6 with
             | e :: es => if currencyChar e then es else r6
             | [] => r6
           some (r7.dropWhile pySpace)
         | _ => none
       else none)
  | _ => none

/-- Match `^\s*רק\s+(?:₪|\$|€)?\s*` (app.py line 375). -/
def matchPrefix3 (l : List Char) : Option (List Char) :=
  match l.dropWhile pySpace with
  | 'ר' :: 'ק' :: r =>
    (match r with
     | [] => none
     | c :: cs =>
       if pySpace c then
         let r2 := cs.dropWhile pySpace
         let r3 :=
           match r2 with
           | e :: es => if currencyChar e then es else r2
           | [] => r2
         some (r3.dropWhile pySpace)
       else none)
  | _ => none

/-- Apply one anchored prefix substitution (`re.sub` with a `^`-anchored
pattern replaces at most the leading match). -/
def subPrefixWith (matcher : List Char → Option (List Char)) (l : List Char) :
    List Char :=
  (matcher l).getD l

/-- The title prefix-stripping step (app.py lines 369-376): the three
anchored substitutions in order, then whitespace normalization. -/
def stripPromoPrefixes (s : String) : String :=
  normalize_whitespace (String.mk
    (subPrefixWith matchPrefix3 (subPrefixWith matchPrefix2
      (subPrefixWith matchPrefix1 s.data))))

/-- Join a current price and a parenthesized annotation as the f-strings
at app.py lines 173, 175, 207 do. -/
def fmtParen (p q : String) : String := p ++ " (" ++ q ++ ")"

/-- Accumulator for the deal4real pricing-div loop (app.py lines
129-169): the discount, previous price and current price found so far. -/
structure D4RAcc where
  discount : Option String
  original : Option String
  price : Option String

/-- One step of the deal4real pricing-div loop (app.py lines 133-169). -/
def d4rDivStep (acc : D4RAcc) (div : Node) : D4RAcc :=
  let t := getTextRaw div
  if containsSub t "ירידה:" || containsSub (pyLower t) "discount" then
    match searchPercent t.data with
    | some m => { acc with discount := some (String.mk m) }
    | none => acc
  else if containsSub t "מחיר קודם:" || containsSub t "מחיר קודם" ||
      containsSub (pyLower t) "previous price" then
    let o1 :=
      match findIn div (fun d => d.tagOf = some "span") with
      | some sp =>
        (match searchMan (getTextStrip sp).data with
         | some m => some (String.mk (pyStripL m))
         | none => acc.original)
      | none => acc.original
    let o2 :=
      if truthyOpt o1 then o1
      else
        match searchMan t.data with
        | some m => some (String.mk (pyStripL m))
        | none => o1
    { acc with original := o2 }
  else if containsSub t "מחיר:" then
    let p1 :=
      match findIn div (fun d => d.tagOf = some "span") with
      | some sp =>
        (match searchMan (getTextStrip sp).data with
         | some m => some (String.mk (pyStripL m))
         | none => acc.price)
      | none => acc.price
    let p2 :=
      if truthyOpt p1 then p1
      else
        match searchMan t.data with
        | some m => some (String.mk (pyStripL m))
        | none => p1
    { acc with price := p2 }
  else acc

/-- Combine the deal4real loop results (app.py lines 171-177). -/
def d4rCombine (acc : D4RAcc) : Option String :=
  if truthyOpt acc.price then
    if truthyOpt acc.original then
      some (fmtParen (acc.price.getD "") (acc.original.getD ""))
    else if truthyOpt acc.discount then
      some (fmtParen (acc.price.getD "") (acc.discount.getD ""))
    else acc.price
  else if truthyOpt acc.discount then acc.discount
  else acc.price

/-- The deal4real branch of `extract_price_text` (app.py lines 126-177). -/
def d4rPrice (node : LNode) : Option String :=
  match selectOne node selPricingWrapper with
  | none => none
  | some w =>
    d4rCombine ((findAllDesc w (fun d => d.tagOf = some "div")).foldl
      d4rDivStep ⟨none, none, none⟩)

/-- Outcome of the zuzu branch: an early `return` of a percentage string
(app.py line 186), or the updated running price text. -/
inductive PriceStep where
  | ret (v : String)
  | cont (p : Option String)

/-- The zuzu branch of `extract_price_text` (app.py lines 180-190). -/
def zuzuBlock (node : LNode) (p : Option String) : PriceStep :=
  match (selectOne node selRhRegularPrice).orElse (fun _ => selectOne node selPriceCount) with
  | none => .cont p
  | some el =>
    let t := getTextStrip el.1
    if containsSub t "%" then .ret t
    else
      match searchSplit matchPriceOptAt t.data with
      | some m => .cont (some (String.mk (pyStripL m.2.1)))
      | none => .cont (some t)

/-- The buywithus branch of `extract_price_text` (app.py lines 193-216). -/
def bwBlock (node : LNode) (p : Option String) : Option String :=
  match (selectOne node selPriceForGridRh).orElse (fun _ => selectOne node selRhRegularPrice) with
  | none => p
  | some el =>
    let t := getTextStrip el.1
    match searchSplit matchPriceOptAt t.data with
    | some m =>
      let extracted := String.mk (pyStripL m.2.1)
      (match selectOne node selBadge with
       | some badge =>
         let bt := getTextStrip badge.1
         if containsSub bt "%" then some (fmtParen extracted bt) else some extracted
       | none => some extracted)
    | none => if containsSub t "%" then some t else none

/-- The class string BeautifulSoup joins for the generic price-class
search (app.py line 229): the class tokens joined by spaces, lowered. -/
def classStr (n : Node) : String :=
  pyLower (String.mk (joinWith [' '] ((classesOf n).map String.data)))

/-- The generic fallback of `extract_price_text` (app.py lines 220-246):
the first `.price` element, else the first element whose class string
contains "price"; a currency-prefixed numeral is extracted from its
text, or from the whole node's text when no such element exists.  When
nothing matches, the incoming price text is kept. -/
def genericBlock (node : LNode) (p : Option String) : Option String :=
  let pe : Option Node :=
    match selectOne node selPrice with
    | some el => some el.1
    | none =>
      ((findAllDesc node (fun _ => true)).filter
        (fun e => !(classesOf e).isEmpty && containsSub (classStr e) "price")).head?
  let text : Option String :=
    match pe with
    | some e => if getTextStrip e ≠ "" then some (getTextSS e) else none
    | none => none
  let text2 : Option String :=
    match text with
    | some t => if t ≠ "" then some t else some (getTextSS node.1)
    | none => some (getTextSS node.1)
  match text2 with
  | some t =>
    if t ≠ "" then
      match searchMan t.data with
      | some m => some (String.mk (pyStripL m))
      | none => p
    else p
  | none => p

/-- `extract_price_text` (app.py lines 121-246): the source-specific
branches in order, each entered only when no price text has been found
yet, then the generic fallback; the zuzu branch may return early with a
percentage string. -/
def extract_price_text (root : LNode) (source_id : Option String) : Option String :=
  let p1 := if source_id = some "deal4real" then d4rPrice root else none
  match (if !truthyOpt p1 && source_id = some "zuzu" then zuzuBlock root p1
         else .cont p1 : PriceStep) with
  | .ret v => some v
  | .cont p2 =>
    let p3 := if !truthyOpt p2 && source_id = some "buywithus" then bwBlock root p2 else p2
    if !truthyOpt p3 then genericBlock root p3 else p3

/-- Strategy 1 of the deal4real title extraction (app.py lines 262-274):
the eleven selectors in order; a candidate is kept when nonempty, not
digits-only after punctuation removal, and longer than three characters. -/
def d4rTitleStrat1 (node : LNode) : Option String :=
  (d4rTitleSelectors.filterMap (fun sel =>
    match selectOne node sel with
    | some el =>
      let candidate := normalize_whitespace (getTextRaw el.1)
      if candidate ≠ "" && !digitsOnly (stripFilterChars candidate.data) &&
          candidate.data.length > 3 then some candidate
      else none
    | none => none)).head?

/-- Strategy 2 of the deal4real title extraction (app.py lines 277-283):
the first image's alt text, with the same filters. -/
def d4rTitleStrat2 (node : LNode) : Option String :=
  match findDesc node (fun d => d.tagOf = some "img") with
  | some img =>
    (match img.getAttr "alt" with
     | some altRaw =>
       let alt := normalize_whitespace altRaw
       if alt ≠ "" && !digitsOnly (stripFilterChars alt.data) &&
           alt.data.length > 3 then some alt
       else none
     | none => none)
  | none => none

/-- Strategy 3 of the deal4real title extraction (app.py lines 286-293):
the first h1, h2 or h3 whose text passes the same filters. -/
def d4rTitleStrat3 (node : LNode) : Option String :=
  ((["h1", "h2", "h3"].filterMap (fun tag =>
    match findDesc node (fun d => d.tagOf = some tag) with
    | some el =>
      let candidate := normalize_whitespace (getTextRaw el)
      if candidate ≠ "" && !digitsOnly (stripFilterChars candidate.data) &&
          candidate.data.length > 3 then some candidate
      else none
    | none => none))).head?

/-- The deal4real title extraction (app.py lines 260-293): the three
strategies in order. -/
def d4rTitle (node : LNode) : Option String :=
  match d4rTitleStrat1 node with
  | some t => some t
  | none =>
    match d4rTitleStrat2 node with
    | some t => some t
    | none => d4rTitleStrat3 node

/-- The beedeals title extraction (app.py lines 297-321), threading the
incoming title through the `.pinMenuCenter` strategies. -/
def beeTitle (node : LNode) (t0 : Option String) : Option String :=
  match selectOne node selPinMenuCenter with
  | none => t0
  | some pmc =>
    let t1 :=
      match findDesc pmc (fun d => d.tagOf = some "span" &&
          (classesOf d).contains "ng-binding") with
      | some sp => some (normalize_whitespace (getTextRaw sp))
      | none => t0
    let t2 :=
      if truthyOpt t1 then t1
      else
        match ((findAllDesc pmc (fun d => d.tagOf = some "span")).filterMap (fun sp =>
          let st := normalize_whitespace (getTextRaw sp)
          if st ≠ "" && st.data.length > 3 then some st else none)).head? with
        | some v => some v
        | none => t1
    let t3 :=
      if truthyOpt t2 then t2
      else
        match pmc.1.getAttr "bo-text" with
        | some bo => if bo ≠ "" then some (normalize_whitespace bo) else t2
        | none => t2
    if truthyOpt t3 then t3
    else
      let allText := normalize_whitespace (getTextRaw pmc.1)
      if allText ≠ "" && allText.data.length > 3 then some allText else t3

/-- The anchor-text blacklist for titles (app.py line 344). -/
def linkTextBlacklist : List String := ["view", "open", "קנה", "רכוש", "לפרטים"]

/-- The generic title extraction (app.py lines 324-360): headings, then
h4-h6/strong/b, then acceptable anchor text, then the first paragraph,
then the whole node text with price patterns removed; each step fires
only while the running title is still falsy. -/
def genericTitle (node : LNode) (t0 : Option String) : Option String :=
  let t1 :=
    if truthyOpt t0 then t0
    else
      match (["h1", "h2", "h3"].filterMap (fun tag =>
        findDesc node (fun d => d.tagOf = some tag))).head? with
      | some el => some (normalize_whitespace (getTextRaw el))
      | none => t0
  let t2 :=
    if truthyOpt t1 then t1
    else
      match findDesc node (fun d => d.tagOf = some "h4" || d.tagOf = some "h5" ||
          d.tagOf = some "h6" || d.tagOf = some "strong" || d.tagOf = some "b") with
      | some el => some (normalize_whitespace (getTextRaw el))
      | none => t1
  let t3 :=
    if truthyOpt t2 then t2
    else
      match findDesc node (fun d => d.tagOf = some "a" && (d.getAttr "href").isSome) with
      | some a =>
        let lt := getTextStrip a
        if lt ≠ "" && !numLike lt.data && !(linkTextBlacklist.contains (pyLower lt)) then
          some (normalize_whitespace lt)
        else t2
      | none => t2
  let t4 :=
    if truthyOpt t3 then t3
    else
      match findDesc node (fun d => d.tagOf = some "p") with
      | some el => some (normalize_whitespace (getTextRaw el))
      | none => t3
  if truthyOpt t4 then t4
  else
    let tt := getTextSS node.1
    if tt ≠ "" then
      let tt2 := String.mk (pyStripL (subAllWith matchPriceOptAt tt.data))
      if tt2 ≠ "" then some (normalize_whitespace tt2) else t4
    else t4

/-- The raw title of a node before the final filter (app.py lines
256-360): the deal4real strategies, then the beedeals strategies, then
the generic chain, each entered only while the title is falsy. -/
def rawTitle (node : LNode) (source_id : Option String) : Option String :=
  let tA := if source_id = some "deal4real" then d4rTitle node else none
  let tB := if !truthyOpt tA && source_id = some "beedeals" then beeTitle node tA else tA
  if !truthyOpt tB then genericTitle node tB else tB

/-- The final title filter (app.py lines 362-366): a truthy title that
reduces to digits only after whitespace/punctuation removal, or whose
stripped length is under three, becomes null. -/
def finalTitleFilter (t : Option String) : Option String :=
  match t with
  | some s =>
    if s ≠ "" then
      if digitsOnly (stripFilterChars s.data) || (pyStripL s.data).length < 3 then none
      else some s
    else some s
  | none => none

/-- The prefix-stripping stage applied to a truthy title (app.py lines
369-376). -/
def titleAfterPrefixes (t : Option String) : Option String :=
  match t with
  | some s => if s ≠ "" then some (stripPromoPrefixes s) else some s
  | none => none

/-- The invalid beedeals price strings (app.py line 389). -/
def beeInvalidPrices : List String := ["$0.0", "$0", "0.0", "0", "₪0", "€0"]

/-- The beedeals price extraction (app.py lines 382-398): the `.pinPrice`
anchor text, else the shared `extract_price_text`. -/
def beePrice (node : LNode) (source_id : Option String) : Option String :=
  let p1 : Option String :=
    match selectOne node selPinPrice with
    | none => none
    | some pp =>
      match findDesc pp (fun d => d.tagOf = some "a") with
      | none => none
      | some a =>
        let pt := normalize_whitespace (getTextRaw a)
        if pt ≠ "" && !(beeInvalidPrices.contains pt) then
          match searchSplit matchBeePriceAt pt.data with
          | some m => some (String.mk (pyStripL m.2.1))
          | none => if pt ≠ "" && pt.data.length > 2 then some pt else none
        else none
  if truthyOpt p1 then p1 else extract_price_text node source_id

/-- The price before the single-digit filter (app.py lines 379-401). -/
def price0 (node : LNode) (source_id : Option String) : Option String :=
  if source_id = some "beedeals" then beePrice node source_id
  else extract_price_text node source_id

/-- The single-bare-digit price filter (app.py lines 403-405). -/
def singleDigitFilter (p : Option String) : Option String :=
  match p with
  | some s =>
    if s ≠ "" && (pyStripL s.data).length = 1 && digitsOnly (pyStripL s.data) then none
    else some s
  | none => none

/-- The token-boundary test of app.py lines 414-418: the characters
just before and just after the matched price (when any) must not be
word characters. -/
def manBoundaryOk (m : List Char × List Char × List Char) : Bool :=
  (match m.1.reverse.head? with
   | none => true
   | some c => !pyWord c) &&
  (match m.2.2.head? with
   | none => true
   | some c => !pyWord c)

/-- The body of the title-to-price move once the guards pass (app.py
lines 410-422): search the title for a currency-mandatory price; at a
token boundary, move its stripped text into the price and delete every
occurrence of it from the title. -/
def movePriceCore (s : String) (t p : Option String) :
    Option String × Option String :=
  match searchSplit matchPriceManAt s.data with
  | some m =>
    if manBoundaryOk m then
      (some (normalize_whitespace (String.mk (pyStripL
        (replaceAllL s.data (pyStripL m.2.1))))),
       some (String.mk (pyStripL m.2.1)))
    else (t, p)
  | none => (t, p)

/-- Move a currency-prefixed numeral found in the title into the price
field when the price is still falsy and the match sits at a token
boundary (app.py lines 408-422); returns the updated title and price. -/
def movePriceFromTitle (t p : Option String) : Option String × Option String :=
  match t with
  | some s => if s ≠ "" && !truthyOpt p then movePriceCore s t p else (t, p)
  | none => (t, p)

/-- Strip residual price text from the title when both the price and the
title are truthy (app.py lines 424-429). -/
def cleanTitleWithPrice (t p : Option String) : Option String :=
  match t with
  | some s =>
    if truthyOpt p && s ≠ "" then
      let s1 := pyStripL (subAllWith matchPriceParenAt s.data)
      let s2 := pyStripL (subAllWith matchPriceManAt s1)
      some (normalize_whitespace (String.mk s2))
    else some s
  | none => none

/-- BeautifulSoup `.parents` of a located node, each parent again as a
located node. -/
def ancestorsWithChains : List Node → List LNode
  | [] => []
  | a :: rest => (a, rest) :: ancestorsWithChains rest

/-- Python `n.get(a1) or n.get(a2) or ...`: the first truthy attribute
value among the names. -/
def firstAttr (n : Node) : List String → Option String
  | [] => none
  | a :: rest =>
    match n.getAttr a with
    | some v => if v ≠ "" then some v else firstAttr n rest
    | none => firstAttr n rest

/-- The image-source guard repeated at app.py lines 474, 487, 501, 523
and 539: a present, non-blank value not beginning with `data:`. -/
def srcOk (s : Option String) : Bool :=
  match s with
  | some v => v ≠ "" && pyStrip v ≠ "" && !strStarts v "data:"
  | none => false

/-- The guarded attribute-resolution pattern the image paths repeat
inline (app.py lines 473-476, 486-488, 500-503, 522-524, 538-540):
when the source value passes the guard, resolve it with external hosts
allowed. -/
def guardedSrc (base_url : String) (src : Option String) : Option String :=
  if srcOk src then resolve_url base_url (src.getD "") true else none

/-- The deal4real image extraction (app.py lines 436-477): locate the
image wrapper in the node, its descendants, or an ancestor; prefer an
image tagged `product-image`, else the first image; then the guarded
source-attribute chain, resolved with external hosts allowed. -/
def d4rImage (node : LNode) (base_url : String) : Option String :=
  let w1 :=
    match selectOne node selProductImageWrapper with
    | some w => some w
    | none => (select node selProductImageWrapper).head?
  let wrapper :=
    match w1 with
    | some w => some w
    | none =>
      ((ancestorsWithChains node.2).filterMap
        (fun par => selectOne par selProductImageWrapper)).head?
  match wrapper with
  | none => none
  | some w =>
    let imgs := findAllDesc w (fun d => d.tagOf = some "img")
    let imgEl :=
      match (imgs.filter (fun i => (classesOf i).contains "product-image")).head? with
      | some i => some i
      | none => findDesc w (fun d => d.tagOf = some "img")
    match imgEl with
    | none => none
    | some img => guardedSrc base_url (firstAttr img ["src", "data-src", "data-lazy-src"])

/-- The beedeals image extraction (app.py lines 480-489). -/
def beeImage (node : LNode) (base_url : String) : Option String :=
  match selectOne node selImageHolder with
  | none => none
  | some holder =>
    match findDesc holder (fun d => d.tagOf = some "img") with
    | none => none
    | some img =>
      guardedSrc base_url (firstAttr img ["bo-src-i", "src", "data-src", "data-lazy-src"])

/-- The srcset fallback of the zuzu/buywithus image extraction (app.py
lines 506-515): the first srcset entry, rejected when it is a `data:`
value or blank; otherwise the incoming image stands. -/
def srcsetImage (img : Node) (base_url : String) (i1 : Option String) : Option String :=
  match img.getAttr "srcset" with
  | some srcset =>
    (match srcset.data with
     | [] => i1
     | c :: _ =>
       if srcset ≠ "" && !(pySpace c || c = ',') then
         if !strStarts (String.mk (srcset.data.takeWhile
               (fun d => !(pySpace d || d = ',')))) "data:" &&
             pyStrip (String.mk (srcset.data.takeWhile
               (fun d => !(pySpace d || d = ',')))) ≠ "" then
           resolve_url base_url (String.mk (srcset.data.takeWhile
             (fun d => !(pySpace d || d = ',')))) true
         else i1
       else i1)
  | none => i1

/-- The zuzu/buywithus image extraction (app.py lines 492-515): the
figure-anchor-img chain with the guarded attribute lookup, then the
srcset fallback when the image is still falsy or blank. -/
def zbImage (node : LNode) (base_url : String) : Option String :=
  match findDesc node (fun d => d.tagOf = some "figure") with
  | none => none
  | some fig =>
    match findIn fig (fun d => d.tagOf = some "a") with
    | none => none
    | some a =>
      match findIn a (fun d => d.tagOf = some "img") with
      | none => none
      | some img =>
        let i1 := guardedSrc base_url (firstAttr img ["src", "data-src", "data-lazy-src"])
        let blank :=
          match i1 with
          | none => true
          | some u => pyStrip u = ""
        if blank then srcsetImage img base_url i1 else i1

/-- Content portion of the first background-image url() whose body can
close: the characters before the last closing parenthesis of the
quote-free run, which is what the greedy group of
`url\(["\x27]?([^"\x27]+)["\x27]?\)` backtracks to. -/
def lastParenSplit (run : List Char) : Option (List Char) :=
  match (run.reverse).dropWhile (fun c => !(c = ')')) with
  | ')' :: restRev => if restRev.isEmpty then none else some restRev.reverse
  | _ => none

/-- Match the body of `url(...)` after the opening parenthesis: an
optional quote, a nonempty quote-free group, an optional quote, and a
closing parenthesis, with the group maximal as Python's greedy matching
makes it. -/
def matchBgAt (l : List Char) : Option (List Char) :=
  let l1 :=
    match l with
    | c :: cs => if c = '"' || c = '\x27' then cs else l
    | [] => l
  let run := l1.takeWhile (fun c => !(c = '"' || c = '\x27'))
  let rest := l1.drop run.length
  if run.isEmpty then none
  else
    match rest with
    | q :: ')' :: _ => if q = '"' || q = '\x27' then some run else lastParenSplit run
    | _ => lastParenSplit run

/-- Python `re.search` of the background-image pattern (app.py line 528):
scan for `url(` and match its body. -/
def searchBgUrl : List Char → Option (List Char)
  | [] => none
  | c :: cs =>
    if ['u', 'r', 'l', '('].isPrefixOf (c :: cs) then
      match matchBgAt ((c :: cs).drop 4) with
      | some content => some content
      | none => searchBgUrl cs
    else searchBgUrl cs

/-- The CSS background-image fallback (app.py lines 526-530): the url()
argument parsed from the image's style attribute, resolved with external
hosts allowed.  Unlike every attribute path, this branch never checks
for a `data:` value. -/
def bgImage (img : Node) (base_url : String) : Option String :=
  match searchBgUrl ((img.getAttr "style").getD "").data with
  | some u => resolve_url base_url (String.mk u) true
  | none => none

/-- The generic image fallback (app.py lines 518-530): the first image's
guarded attribute chain, then the background-image fallback while the
image is still falsy. -/
def genericImage (node : LNode) (base_url : String) : Option String :=
  match findDesc node (fun d => d.tagOf = some "img") with
  | none => none
  | some img =>
    let i1 := guardedSrc base_url (firstAttr img ["src", "data-src", "data-lazy-src"])
    if !truthyOpt i1 then
      match bgImage img base_url with
      | some u => some u
      | none => i1
    else i1

/-- The ancestor image search (app.py lines 533-541): the first ancestor
whose first image passes the guarded attribute chain.  (The resolver
with external hosts allowed never returns none for a guarded source, so
taking the first successful ancestor is the loop's break.) -/
def ancestorImage (node : LNode) (base_url : String) : Option String :=
  ((ancestorsWithChains node.2).filterMap (fun par =>
    match findDesc par (fun d => d.tagOf = some "img") with
    | some img => guardedSrc base_url (firstAttr img ["src", "data-src", "data-lazy-src"])
    | none => none)).head?

/-- One block of the image chain: the Python code assigns `image` only
when the block produced a value, so the block's result stands when it is
present and the previous value stands otherwise. -/
def imageStep (next prev : Option String) : Option String :=
  match next with
  | some u => some u
  | none => prev

/-- The image of a node (app.py lines 431-541): the source-specific
extractions, the generic fallback, then the ancestor search, each
entered only while the image is falsy. -/
def imageOf (node : LNode) (base_url : String) (source_id : Option String) :
    Option String :=
  let i1 := if source_id = some "deal4real" then d4rImage node base_url else none
  let i2 :=
    if !truthyOpt i1 && source_id = some "beedeals" then
      imageStep (beeImage node base_url) i1
    else i1
  let i3 :=
    if !truthyOpt i2 && (source_id = some "zuzu" || source_id = some "buywithus") then
      imageStep (zbImage node base_url) i2
    else i2
  let i4 :=
    if !truthyOpt i3 then imageStep (genericImage node base_url) i3 else i3
  if !truthyOpt i4 then imageStep (ancestorImage node base_url) i4 else i4

/-- The beedeals link extraction (app.py lines 547-572): the `.pinPrice`
anchor, then any anchor whose href mentions go.php or bee.deals, then
the topHolder ng-click fallback — every resolution allows external
hosts. -/
def beeLink (node : LNode) (base_url : String) : Option String :=
  let l1 :=
    match selectOne node selPinPriceA with
    | some a =>
      (match firstAttr a.1 ["bo-href", "href"] with
       | some h => resolve_url base_url h true
       | none => none)
    | none => none
  let l2 :=
    if !truthyOpt l1 then
      match ((findAllDesc node (fun d => d.tagOf = some "a" &&
          (d.getAttr "href").isSome)).filterMap (fun a =>
        match firstAttr a ["href", "bo-href"] with
        | some h =>
          if containsSub h "go.php" || containsSub h "bee.deals" then
            some (resolve_url base_url h true)
          else none
        | none => none)).head? with
      | some r => r
      | none => l1
    else l1
  if !truthyOpt l2 then
    match selectOne node selTopHolder with
    | some th =>
      (match th.1.getAttr "ng-click" with
       | some ng =>
         if ng ≠ "" && containsSub ng "alphaId" then
           match findDesc node (fun d => d.tagOf = some "a" &&
               (d.getAttr "href").isSome) with
           | some a =>
             (match a.getAttr "href" with
              | some h => if h ≠ "" then resolve_url base_url h true else l2
              | none => l2)
           | none => l2
         else l2
       | none => l2)
    | none => l2
  else l2

/-- The link of a node (app.py lines 543-577): the beedeals strategies,
then the generic first anchor, the latter resolved with external hosts
NOT allowed. -/
def linkOf (node : LNode) (base_url : String) (source_id : Option String) :
    Option String :=
  let l0 := if source_id = some "beedeals" then beeLink node base_url else none
  if !truthyOpt l0 then
    match findDesc node (fun d => d.tagOf = some "a" && (d.getAttr "href").isSome) with
    | some a => resolve_url base_url ((a.getAttr "href").getD "") false
    | none => none
  else l0

/-- `DealItem` (app.py lines 77-82): the normalized record; a Python
`None` field is `none` and an empty string stays `some ""`. -/
structure DealItem where
  title : Option String
  link : Option String
  price : Option String
  image : Option String
deriving DecidableEq

/-- The record a single matched node yields (app.py lines 254-577). -/
def perNodeItem (base_url : String) (source_id : Option String) (node : LNode) :
    DealItem :=
  let t5 := titleAfterPrefixes (finalTitleFilter (rawTitle node source_id))
  let p1 := singleDigitFilter (price0 node source_id)
  let tp := movePriceFromTitle t5 p1
  ⟨cleanTitleWithPrice tp.1 tp.2, linkOf node base_url source_id, tp.2,
   imageOf node base_url source_id⟩

/-- The minimum-field retention rule (app.py lines 579-586), by Python
truthiness. -/
def keepItem (source_id : Option String) (it : DealItem) : Bool :=
  if source_id = some "beedeals" then truthyOpt it.title || truthyOpt it.link
  else truthyOpt it.title || truthyOpt it.link || truthyOpt it.price

/-- The dedup key (app.py line 589): the link when truthy, else the
lower-cased title when truthy, else nothing. -/
def dedupeKey (it : DealItem) : Option String :=
  if truthyOpt it.link then it.link
  else if truthyOpt it.title then it.title.map pyLower
  else none

/-- The dedup loop (app.py lines 588-594).  The Python conditional
`if not dedupe_key or dedupe_key in seen_keys: if dedupe_key in
seen_keys: continue` skips exactly when the key is in the seen set, and
the absent key is recorded in the set like any other. -/
def dedupLoop (seen : List (Option String)) : List DealItem → List DealItem
  | [] => []
  | it :: rest =>
    let k := dedupeKey it
    if k ∈ seen then dedupLoop seen rest
    else it :: dedupLoop (k :: seen) rest

/-- The retained candidate records of a document in DOM order, before
dedup (the loop body of app.py lines 254-586). -/
def candidateItems (root : Node) (base_url : String) (selector : Sel)
    (source_id : Option String) : List DealItem :=
  ((select (root, []) selector).map (perNodeItem base_url source_id)).filter
    (keepItem source_id)

/-- `extract_items` (app.py lines 248-599) on the parsed document: map
each selected node to its record, drop records failing the retention
rule, and dedup by first-seen key.  The Python loop interleaves the
three steps, but its retention test does not consult the seen set, so
the composition is the same function. -/
def extract_items (root : Node) (base_url : String) (selector : Sel)
    (source_id : Option String) : List DealItem :=
  dedupLoop [] (candidateItems root base_url selector source_id)

/-- `SOURCE_MAP` (app.py lines 51-56): source id, base URL, item
selector. -/
def SOURCE_MAP : List (String × String × Sel) :=
  [("deal4real", "https://deal4real.co.il/", selProductCard),
   ("zuzu", "https://zuzu.deals/", selColItem),
   ("buywithus", "https://buywithus.org/", selColItem),
   ("beedeals", "https://il.bee.deals/dashboard", selPinItem)]

/-- The registry's id set (`SOURCE_MAP.keys()`). -/
def sourceIds : List String := SOURCE_MAP.map (fun e => e.1)

/-- The in-memory result cache, abstracted from its TTL: the entries
still live at the moment of the request (an expired entry is simply
absent). -/
abbrev Cache := List (String × List DealItem)

/-- How one awaited render of a source resolves: a rendered document, a
raised exception, or cancellation by the orchestrator's 70-second
`asyncio.wait_for` timeout. -/
inductive RenderOutcome where
  | success (root : Node)
  | raise
  | timeout

/-- `scrape_source` (app.py lines 629-658) under one render outcome,
returning the result and the cache after the call.  The value `none`
means the coroutine was cancelled: `asyncio.CancelledError` is a
`BaseException` in Python 3.8+, so the `except Exception` handler at
line 653 does not catch it and the cache write at line 657 is skipped.
A cache write is modelled by prepending the entry (lookup finds the
newest entry first, as the dict-style assignment behaves). -/
def scrapeSourceRun (cache : Cache) (source_id : String) (r : RenderOutcome) :
    Option (List DealItem × Cache) :=
  match SOURCE_MAP.lookup source_id with
  | none => some ([], cache)
  | some meta =>
    let key := "src:" ++ source_id
    match cache.lookup key with
    | some items => some (items, cache)
    | none =>
      match r with
      | .success root =>
        let items := extract_items root meta.1 meta.2 (some source_id)
        some (items, (key, items) :: cache)
      | .raise => some (([] : List DealItem), (key, ([] : List DealItem)) :: cache)
      | .timeout => none

/-- The per-source task of `/scrape` (app.py lines 745-757): a raised
exception — including the `asyncio.TimeoutError` of the 70-second
`wait_for` — is caught and yields an empty list for that source; on a
timeout the cancelled `scrape_source` has not written its cache entry. -/
def runOne (cache : Cache) (source_id : String) (r : RenderOutcome) :
    List DealItem × Cache :=
  match scrapeSourceRun cache source_id r with
  | some res => res
  | none => ([], cache)

/-- Keep the first occurrence of each string (Python dict insertion
order over duplicate keys). -/
def dedupFirst (seen : List String) : List String → List String
  | [] => []
  | s :: rest =>
    if seen.contains s then dedupFirst seen rest
    else s :: dedupFirst (s :: seen) rest

/-- Split a character list at commas. -/
def splitCommaAux : List Char → List Char → List (List Char)
  | [], acc => [acc.reverse]
  | c :: cs, acc =>
    if c = ',' then acc.reverse :: splitCommaAux cs []
    else splitCommaAux cs (c :: acc)

/-- The requested id list (app.py line 739): split the query string on
commas, strip each piece, drop the empty ones. -/
def parseSources (sources : String) : List String :=
  ((splitCommaAux sources.data []).map (fun p => String.mk (pyStripL p))).filter
    (fun s => s ≠ "")

/-- The orchestrator `/scrape` (app.py lines 736-760), the per-source
work abstracted by an outcome map: `none` models a task whose awaited
scrape raised or timed out (the task then stores an empty list), `some
items` a task that returned those items.  The response dict holds one
entry per distinct known requested id, in first-occurrence order; the
tasks run over `allowed` and each writes only its own key, so the
settled dict is this map. -/
def scrape (sources : String) (outcome : String → Option (List DealItem)) :
    List (String × List DealItem) :=
  let allowed := (parseSources sources).filter (fun s => sourceIds.contains s)
  (dedupFirst [] allowed).map (fun s => (s, (outcome s).getD []))

/-- A beedeals pin whose price anchor links to an external host
(markup: a `div.pin.nfDealItemsPin` holding a `.pinMenuCenter` span
"Cool gadget" and a `.pinPrice` anchor to https://evil.example/x). -/
def beeExtTree : Node :=
  .elem "html" [] [
    .elem "body" [] [
      .elem "div" [("class", "pin nfDealItemsPin")] [
        .elem "div" [("class", "pinMenuCenter")] [
          .elem "span" [("class", "ng-binding")] [.text "Cool gadget"]],
        .elem "div" [("class", "pinPrice")] [
          .elem "a" [("href", "https://evil.example/x")] [.text "₪30"]]]]]

example : extract_items beeExtTree "https://il.bee.deals/dashboard" selPinItem
    (some "beedeals") =
    [⟨some "Cool gadget", some "https://evil.example/x", some "₪30", none⟩] := rfl

/-- A zuzu item whose only image is a `data:` background-image in an
inline style (markup: `div.col_item` with an `h2` "Widget" and a bare
`img` with a style attribute). -/
def bgDataTree : Node :=
  .elem "html" [] [
    .elem "body" [] [
      .elem "div" [("class", "col_item")] [
        .elem "h2" [] [.text "Widget"],
        .elem "img" [("style", "background-image:url(data:image/png;base64,AAAA)")] []]]]

example : extract_items bgDataTree "https://zuzu.deals/" selColItem (some "zuzu") =
    [⟨some "Widget", none, none, some "data:image/png;base64,AAAA"⟩] := rfl

/-- A zuzu item whose heading is the promotional prefix followed by a
bare number (markup: `div.col_item` with an `h2` reading "רק ב 123"). -/
def promoDigitsTree : Node :=
  .elem "html" [] [
    .elem "body" [] [
      .elem "div" [("class", "col_item")] [.elem "h2" [] [.text "רק ב 123"]]]]

example : extract_items promoDigitsTree "https://zuzu.deals/" selColItem (some "zuzu") =
    [⟨some "123", none, none, none⟩] := rfl

/-- Two zuzu items with nothing but prices: the first an `h2` "₪55"
(whose title is emptied by price stripping), the second a `.price` span
"₪20" (whose title stays null). -/
def priceOnlyTree : Node :=
  .elem "html" [] [
    .elem "body" [] [
      .elem "div" [("class", "col_item")] [.elem "h2" [] [.text "₪55"]],
      .elem "div" [("class", "col_item")] [
        .elem "span" [("class", "price")] [.text "₪20"]]]]

example : candidateItems priceOnlyTree "https://zuzu.deals/" selColItem (some "zuzu") =
    [⟨some "", none, some "₪55", none⟩, ⟨none, none, some "₪20", none⟩] := rfl

example : extract_items priceOnlyTree "https://zuzu.deals/" selColItem (some "zuzu") =
    [⟨some "", none, some "₪55", none⟩] := rfl

/-- Two zuzu items resolving to the same relative link `/p1` with
different titles. -/
def dupLinkTree : Node :=
  .elem "html" [] [
    .elem "body" [] [
      .elem "div" [("class", "col_item")] [
        .elem "h2" [] [.text "First item"],
        .elem "a" [("href", "/p1")] [.text "view"]],
      .elem "div" [("class", "col_item")] [
        .elem "h2" [] [.text "Second item"],
        .elem "a" [("href", "/p1")] [.text "view"]]]]

example : extract_items dupLinkTree "https://zuzu.deals/" selColItem (some "zuzu") =
    [⟨some "First item", some "https://zuzu.deals/p1", none, none⟩] := rfl

example : (searchSplit matchPriceOptAt "Black-7".data).map (fun r => String.mk r.2.1) =
    some "7" := rfl

example : (searchSplit matchPriceOptAt "a 5".data).map (fun r => String.mk r.2.1) =
    some " 5" := rfl

example : (searchSplit matchPriceOptAt "₪ 55,9.x".data).map (fun r => String.mk r.2.1) =
    some "₪ 55,9." := rfl

example : (searchMan "AB ₪55".data).map String.mk = some "₪55" := rfl

example : stripPromoPrefixes "רק ב רק ב X" = "ב X" := rfl

example : (matchPrefix1 "רק ב 123".data).map String.mk = some "123" := rfl

example : (searchBgUrl "background-image:url(data:image/png;base64,AAAA)".data).map String.mk =
    some "data:image/png;base64,AAAA" := rfl

example : (searchBgUrl "url(a)b)".data).map String.mk = some "a)b" := rfl

example : (searchPercent "1.2.3%".data).map String.mk = some "2.3%" := rfl

example : (searchPercent "x 12.5% y".data).map String.mk = some "12.5%" := rfl

example : String.mk (subAllWith matchPriceOptAt "AB ₪55 CD 7".data) = "AB  CD" := rfl

example : String.mk (subAllWith matchPriceParenAt "X ₪92 ($56) Y".data) = "X  Y" := rfl

example : urljoin "https://il.bee.deals/dashboard" "go.php?id=1" =
    "https://il.bee.deals/go.php?id=1" := rfl

example : urljoin "https://a/" "data:image/png;base64,x" = "data:image/png;base64,x" := rfl

example : urljoin "https://buywithus.org/" "deal/1" = "https://buywithus.org/deal/1" := rfl

example : urljoin "https://deal4real.co.il/a/b" "/c" = "https://deal4real.co.il/c" := rfl

example : is_allowed_host "https://evil.example/x" = false := rfl

example : is_allowed_host "https://WWW.ZUZU.deals/p?q=1" = true := rfl

example : resolve_url "https://zuzu.deals/" "//evil.example/x" false = none := rfl

/-- A truthy optional string is not `none`. -/
theorem truthy_ne_none {o : Option String} (h : truthyOpt o = true) : o ≠ none := by
  cases o with
  | none => simp [truthyOpt] at h
  | some s => simp

/-- An allow-external resolution that yields nothing only happens on an
empty href. -/
theorem resolve_url_false_allowed (base h u : String)
    (H : resolve_url base h false = some u) : is_allowed_host u = true := by
  unfold resolve_url at H
  by_cases h0 : h = ""
  · rw [if_pos h0] at H; cases H
  · rw [if_neg h0] at H
    by_cases h1 : (strStarts h "http://" || strStarts h "https://") = true
    · rw [if_pos h1] at H
      simp only [Bool.false_eq_true, if_false] at H
      by_cases h2 : is_allowed_host h = true
      · rw [if_pos h2] at H; cases H; exact h2
      · rw [if_neg h2] at H; cases H
    · rw [if_neg h1] at H
      simp only [Bool.false_eq_true, if_false] at H
      by_cases h2 : is_allowed_host (urljoin base h) = true
      · rw [if_pos h2] at H; cases H; exact h2
      · rw [if_neg h2] at H; cases H

/-- Claim C5: `resolve_url` returns none for an empty href; an absolute
http(s) href passes through unchanged when external hosts are allowed
and is gated by the host allowlist otherwise; in particular the
evil.example URL is refused without `allow_external` and returned
unchanged with it. -/
theorem claim5_theorem :
    (∀ base ext, resolve_url base "" ext = none) ∧
    (∀ base href, (strStarts href "http://" || strStarts href "https://") = true →
      resolve_url base href true = some href) ∧
    (∀ base href, (strStarts href "http://" || strStarts href "https://") = true →
      resolve_url base href false =
        (if is_allowed_host href then some href else none)) ∧
    (∀ base, resolve_url base "https://evil.example/x" false = none) ∧
    (∀ base, resolve_url base "https://evil.example/x" true =
      some "https://evil.example/x") := by
  refine ⟨fun base ext => by simp [resolve_url], ?_, ?_, fun base => rfl, fun base => rfl⟩
  · intro base href habs
    have hne : ¬href = "" := by
      intro he
      subst he
      simp [strStarts, List.isPrefixOf] at habs
    unfold resolve_url
    rw [if_neg hne, if_pos habs]
    simp
  · intro base href habs
    have hne : ¬href = "" := by
      intro he
      subst he
      simp [strStarts, List.isPrefixOf] at habs
    unfold resolve_url
    rw [if_neg hne, if_pos habs]
    simp

/-- Witness for claim C5 at concrete inputs: an allowlisted absolute
href survives the gate and the external-host href behaves as claimed. -/
theorem claim5_witness :
    resolve_url "https://a/" "https://zuzu.deals/p" true = some "https://zuzu.deals/p" ∧
    resolve_url "https://a/" "https://zuzu.deals/p" false =
      (if is_allowed_host "https://zuzu.deals/p" then some "https://zuzu.deals/p" else none) ∧
    resolve_url "https://a/" "https://evil.example/x" false = none :=
  ⟨claim5_theorem.2.1 "https://a/" "https://zuzu.deals/p" (by decide),
   claim5_theorem.2.2.1 "https://a/" "https://zuzu.deals/p" (by decide),
   claim5_theorem.2.2.2.1 "https://a/"⟩

/-- Members of `dedupFirst` come from the input list. -/
theorem mem_of_mem_dedupFirst {a : String} :
    ∀ (seen l : List String), a ∈ dedupFirst seen l → a ∈ l := by
  intro seen l
  induction l generalizing seen with
  | nil => simp [dedupFirst]
  | cons s rest ih =>
    simp only [dedupFirst]
    by_cases h : seen.contains s
    · rw [if_pos h]
      intro hm
      exact List.mem_cons_of_mem _ (ih seen hm)
    · rw [if_neg h]
      intro hm
      rcases List.mem_cons.1 hm with he | hm2
      · exact he ▸ List.mem_cons_self _ _
      · exact List.mem_cons_of_mem _ (ih _ hm2)

/-- Members of `dedupFirst` are not in the seen set. -/
theorem dedupFirst_not_seen {a : String} :
    ∀ (seen l : List String), a ∈ dedupFirst seen l → seen.contains a = false := by
  intro seen l
  induction l generalizing seen with
  | nil => simp [dedupFirst]
  | cons s rest ih =>
    simp only [dedupFirst]
    by_cases h : seen.contains s
    · rw [if_pos h]
      exact ih seen
    · rw [if_neg h]
      intro hm
      rcases List.mem_cons.1 hm with he | hm2
      · subst he
        exact Bool.not_eq_true _ ▸ (by simpa using h)
      · have := ih _ hm2
        simp only [List.contains_cons, Bool.or_eq_false_iff] at this
        exact this.2

/-- `dedupFirst` has no duplicates. -/
theorem dedupFirst_nodup : ∀ (seen l : List String), (dedupFirst seen l).Nodup := by
  intro seen l
  induction l generalizing seen with
  | nil => simp [dedupFirst]
  | cons s rest ih =>
    simp only [dedupFirst]
    by_cases h : seen.contains s
    · rw [if_pos h]; exact ih seen
    · rw [if_neg h]
      refine List.nodup_cons.2 ⟨?_, ih _⟩
      intro hm
      have := dedupFirst_not_seen _ _ hm
      simp [List.contains_cons] at this

/-- Claim C2: the scrape response holds exactly one entry per distinct
requested id found in the registry, in first-occurrence order; an entry
is determined only by its own source's outcome, a failed or timed-out
source maps to the empty list, and unknown ids are omitted. -/
theorem claim2_theorem (sources : String) (outcome : String → Option (List DealItem)) :
    ((scrape sources outcome).map Prod.fst =
      dedupFirst [] ((parseSources sources).filter (fun s => sourceIds.contains s))) ∧
    (∀ s items, (s, items) ∈ scrape sources outcome → items = (outcome s).getD []) ∧
    (∀ s, sourceIds.contains s = false →
      ∀ items : List DealItem, (s, items) ∉ scrape sources outcome) ∧
    ((scrape sources outcome).map Prod.fst).Nodup := by
  have hcomp : (Prod.fst ∘ fun s : String => (s, (outcome s).getD [])) = id := rfl
  refine ⟨?_, ?_, ?_, ?_⟩
  · unfold scrape
    rw [List.map_map, hcomp, List.map_id]
  · intro s items hm
    unfold scrape at hm
    rcases List.mem_map.1 hm with ⟨a, _, heq⟩
    cases heq
    rfl
  · intro s hk items hm
    unfold scrape at hm
    rcases List.mem_map.1 hm with ⟨a, ha, heq⟩
    cases heq
    have := mem_of_mem_dedupFirst _ _ ha
    rcases List.mem_filter.1 this with ⟨_, hc⟩
    rw [hk] at hc
    cases hc
  · unfold scrape
    rw [List.map_map, hcomp, List.map_id]
    exact dedupFirst_nodup [] _

/-- A concrete scrape outcome for the scenario-C witness: zuzu returns
one item, every other source raises. -/
def outcomeC : String → Option (List DealItem) := fun s =>
  if s = "zuzu" then some [⟨some "Thing", none, some "₪9", none⟩] else none

/-- The scenario-C query string: two known sources and an unknown id. -/
def scenarioCQuery : String := "deal4real,unknown,zuzu"

/-- Witness for claim C2 at the scenario-C input: the failed known
source maps to the empty list and the unknown id is absent. -/
theorem claim2_witness :
    (([] : List DealItem) = (outcomeC "deal4real").getD []) ∧
    ("unknown", ([] : List DealItem)) ∉ scrape scenarioCQuery outcomeC :=
  ⟨(claim2_theorem scenarioCQuery outcomeC).2.1 "deal4real" [] (by decide),
   (claim2_theorem scenarioCQuery outcomeC).2.2.1 "unknown" (by decide) []⟩

/-- Counterexample to claim C6: when the 70-second `wait_for` cancels a
source's scrape, the task stores an empty list but no cache entry is
written — the claim's "the empty result is still written to the cache"
fails for the timeout case. -/
theorem claim6_counterexample :
    (runOne [] "zuzu" RenderOutcome.timeout).1 = [] ∧
    ((runOne [] "zuzu" RenderOutcome.timeout).2).lookup "src:zuzu" = none :=
  ⟨rfl, rfl⟩

/-- Claim C6 as amended: an exception raised inside the scrape of a
registered, uncached source yields an empty result that IS written to
the cache under the source's key (with no retry, the call being single);
a cancellation by the orchestrator's 70-second timeout yields an empty
result in the response while leaving the cache unchanged. -/
theorem claim6_amended (cache : Cache) (sid : String) (url : String) (sel : Sel)
    (hreg : SOURCE_MAP.lookup sid = some (url, sel))
    (hmiss : cache.lookup ("src:" ++ sid) = none) :
    runOne cache sid RenderOutcome.raise = ([], ("src:" ++ sid, []) :: cache) ∧
    ((runOne cache sid RenderOutcome.raise).2).lookup ("src:" ++ sid) = some [] ∧
    runOne cache sid RenderOutcome.timeout = ([], cache) := by
  simp only [runOne, scrapeSourceRun, hreg, hmiss]
  refine ⟨?_, ?_, ?_⟩
  · first
    | rfl
    | trivial
  · simp [List.lookup]
  · first
    | rfl
    | trivial

/-- Witness for claim C6 at a concrete input: the zuzu source with an
empty cache. -/
theorem claim6_witness :
    runOne [] "zuzu" RenderOutcome.raise = ([], [("src:zuzu", [])]) ∧
    ((runOne [] "zuzu" RenderOutcome.raise).2).lookup "src:zuzu" = some [] ∧
    runOne [] "zuzu" RenderOutcome.timeout = ([], []) :=
  claim6_amended [] "zuzu" "https://zuzu.deals/" selColItem rfl rfl

/-- The dedup loop yields a sublist of its input: every output record is
an input record and the input order is preserved. -/
theorem dedupLoop_sublist (seen : List (Option String)) (l : List DealItem) :
    (dedupLoop seen l).Sublist l := by
  induction l generalizing seen with
  | nil => simp [dedupLoop]
  | cons it rest ih =>
    simp only [dedupLoop]
    by_cases h : dedupeKey it ∈ seen
    · rw [if_pos h]
      exact (ih seen).cons it
    · rw [if_neg h]
      exact (ih _).cons₂ it

/-- The records of the dedup loop's output carrying a given key: none
when the key was already seen, else exactly the first input record with
that key. -/
theorem dedupLoop_filter_key (k : Option String) :
    ∀ (seen : List (Option String)) (l : List DealItem),
      (dedupLoop seen l).filter (fun r => dedupeKey r = k) =
        if k ∈ seen then []
        else (l.filter (fun r => dedupeKey r = k)).take 1 := by
  intro seen l
  induction l generalizing seen with
  | nil => simp [dedupLoop]
  | cons it rest ih =>
    simp only [dedupLoop]
    by_cases hs : dedupeKey it ∈ seen
    · rw [if_pos hs, ih seen]
      by_cases hk : k ∈ seen
      · simp [hk]
      · have hne : ¬(dedupeKey it = k) := fun he => hk (he ▸ hs)
        simp [hk, List.filter_cons, hne]
    · rw [if_neg hs]
      by_cases he : dedupeKey it = k
      · subst he
        rw [List.filter_cons_of_pos (by simp), ih]
        simp [hs, List.filter_cons]
      · rw [List.filter_cons_of_neg (by simp [he]), ih]
        by_cases hk : k ∈ seen
        · simp [hk, List.mem_cons, he]
        · have hne : ¬(k = dedupeKey it) := fun h2 => he h2.symm
          rw [if_neg (by simp [List.mem_cons, hne, hk]), if_neg hk,
            List.filter_cons_of_neg (by simp [he])]

/-- Every record of `extract_items` arises from a selected node's record
that passed the retention rule. -/
theorem mem_extract (root : Node) (base : String) (sel : Sel)
    (sid : Option String) (r : DealItem)
    (h : r ∈ extract_items root base sel sid) :
    ∃ n ∈ select (root, ([] : List Node)) sel,
      r = perNodeItem base sid n ∧ keepItem sid r = true := by
  have h1 : r ∈ candidateItems root base sel sid :=
    (dedupLoop_sublist [] _).subset h
  unfold candidateItems at h1
  rcases List.mem_filter.1 h1 with ⟨h2, hkeep⟩
  rcases List.mem_map.1 h2 with ⟨n, hn, heq⟩
  exact ⟨n, hn, heq.symm, hkeep⟩

/-- Claim C3: a record is retained only when at least one of title, link
and price is non-null, and under the beedeals variant only when the
title or the link is non-null, regardless of price. -/
theorem claim3_theorem (root : Node) (base : String) (sel : Sel)
    (sid : Option String) (r : DealItem)
    (h : r ∈ extract_items root base sel sid) :
    (r.title ≠ none ∨ r.link ≠ none ∨ r.price ≠ none) ∧
    (sid = some "beedeals" → (r.title ≠ none ∨ r.link ≠ none)) := by
  rcases mem_extract root base sel sid r h with ⟨n, _, _, hkeep⟩
  unfold keepItem at hkeep
  by_cases hb : sid = some "beedeals"
  · rw [if_pos hb] at hkeep
    rcases Bool.or_eq_true_iff.1 hkeep with ht | hl
    · exact ⟨Or.inl (truthy_ne_none ht), fun _ => Or.inl (truthy_ne_none ht)⟩
    · exact ⟨Or.inr (Or.inl (truthy_ne_none hl)),
        fun _ => Or.inr (truthy_ne_none hl)⟩
  · rw [if_neg hb] at hkeep
    refine ⟨?_, fun hc => absurd hc hb⟩
    rcases Bool.or_eq_true_iff.1 hkeep with h1 | hp
    · rcases Bool.or_eq_true_iff.1 h1 with ht | hl
      · exact Or.inl (truthy_ne_none ht)
      · exact Or.inr (Or.inl (truthy_ne_none hl))
    · exact Or.inr (Or.inr (truthy_ne_none hp))

/-- Witness for claim C3 at a concrete beedeals document. -/
theorem claim3_witness :
    ((some "Cool gadget" : Option String) ≠ none ∨
      (some "https://evil.example/x" : Option String) ≠ none ∨
      (some "₪30" : Option String) ≠ none) ∧
    (some "beedeals" = some "beedeals" →
      ((some "Cool gadget" : Option String) ≠ none ∨
        (some "https://evil.example/x" : Option String) ≠ none)) :=
  claim3_theorem beeExtTree "https://il.bee.deals/dashboard" selPinItem
    (some "beedeals")
    ⟨some "Cool gadget", some "https://evil.example/x", some "₪30", none⟩
    (by decide)

/-- Claim C4: the output of `extract_items` is the candidate sequence in
DOM order with, for every dedup key, exactly the first candidate record
carrying that key — later records sharing the key collapse into it,
keeping the first record's field values. -/
theorem claim4_theorem (root : Node) (base : String) (sel : Sel)
    (sid : Option String) :
    (extract_items root base sel sid).Sublist (candidateItems root base sel sid) ∧
    ∀ k : String,
      (extract_items root base sel sid).filter (fun r => dedupeKey r = some k) =
        ((candidateItems root base sel sid).filter
          (fun r => dedupeKey r = some k)).take 1 := by
  constructor
  · exact dedupLoop_sublist [] _
  · intro k
    have := dedupLoop_filter_key (some k) [] (candidateItems root base sel sid)
    simpa using this

/-- Counterexample to claim C10: in this two-item zuzu document the
first (and only) candidate whose title and link are both null is
dropped, because an earlier record with an empty — not null — title
already claimed the absent dedup key; the claim's "the first such
record in DOM order is kept" fails. -/
theorem claim10_counterexample :
    ((candidateItems priceOnlyTree "https://zuzu.deals/" selColItem (some "zuzu")).any
      (fun r => r.title.isNone && r.link.isNone)) = true ∧
    ((extract_items priceOnlyTree "https://zuzu.deals/" selColItem (some "zuzu")).all
      (fun r => !(r.title.isNone && r.link.isNone))) = true :=
  ⟨rfl, rfl⟩

/-- Claim C10 as amended: for a non-beedeals source the output holds at
most one record whose dedup key is absent — link null and title null or
empty — namely the first such candidate in DOM order; every later such
candidate is dropped even when its price differs.  (The original claim's
"title null" must be read as "title null or empty": an empty-titled
record claims the same absent key.) -/
theorem claim10_amended (root : Node) (base : String) (sel : Sel)
    (sid : Option String) (_hsid : sid ≠ some "beedeals") :
    (∀ r : DealItem, dedupeKey r = none ↔
      (truthyOpt r.link = false ∧ truthyOpt r.title = false)) ∧
    (extract_items root base sel sid).filter (fun r => dedupeKey r = none) =
      ((candidateItems root base sel sid).filter
        (fun r => dedupeKey r = none)).take 1 ∧
    ((extract_items root base sel sid).filter
      (fun r => dedupeKey r = none)).length ≤ 1 := by
  refine ⟨?_, ?_, ?_⟩
  · intro r
    unfold dedupeKey
    by_cases hl : truthyOpt r.link = true
    · rw [if_pos hl]
      constructor
      · intro he
        exact absurd he (truthy_ne_none hl)
      · intro ⟨h1, _⟩
        rw [hl] at h1
        cases h1
    · rw [if_neg hl]
      by_cases ht : truthyOpt r.title = true
      · rw [if_pos ht]
        constructor
        · intro he
          cases htt : r.title with
          | none => rw [htt] at ht; simp [truthyOpt] at ht
          | some s => rw [htt] at he; simp at he
        · intro ⟨_, h2⟩
          rw [ht] at h2
          cases h2
      · rw [if_neg ht]
        simp only [Bool.not_eq_true] at hl ht
        exact ⟨fun _ => ⟨hl, ht⟩, fun _ => rfl⟩
  · have := dedupLoop_filter_key none [] (candidateItems root base sel sid)
    simpa using this
  · have := dedupLoop_filter_key none [] (candidateItems root base sel sid)
    simp only [List.not_mem_nil, if_false] at this
    rw [show (extract_items root base sel sid) = dedupLoop []
      (candidateItems root base sel sid) from rfl, this]
    exact List.length_take_le 1 _

/-- Witness for claim C10 as amended, at the two-item zuzu document. -/
theorem claim10_witness :
    (∀ r : DealItem, dedupeKey r = none ↔
      (truthyOpt r.link = false ∧ truthyOpt r.title = false)) ∧
    (extract_items priceOnlyTree "https://zuzu.deals/" selColItem (some "zuzu")).filter
      (fun r => dedupeKey r = none) =
      ((candidateItems priceOnlyTree "https://zuzu.deals/" selColItem
        (some "zuzu")).filter (fun r => dedupeKey r = none)).take 1 ∧
    ((extract_items priceOnlyTree "https://zuzu.deals/" selColItem
      (some "zuzu")).filter (fun r => dedupeKey r = none)).length ≤ 1 :=
  claim10_amended priceOnlyTree "https://zuzu.deals/" selColItem (some "zuzu")
    (by decide)

/-- Counterexample to claim C7: the heading "רק ב 123" passes the final
title filter (its cleaned form still holds Hebrew letters), but the
prefix stripping that runs AFTER the filter leaves the output title
"123" — a non-null output title that reduces to digits only. -/
theorem claim7_counterexample :
    extract_items promoDigitsTree "https://zuzu.deals/" selColItem (some "zuzu") =
      [⟨some "123", none, none, none⟩] ∧
    digitsOnly (stripFilterChars "123".data) = true :=
  ⟨rfl, rfl⟩

/-- Claim C7 as amended: the digits-only/length filter holds at the
final title filter stage (app.py lines 362-366) — a truthy title
surviving that stage is unchanged, does not reduce to digits only after
whitespace/punctuation removal, and its stripped length is at least 3.
The promotional prefixes are stripped once each AFTER this filter, and
that stripping (or later price-token removal) can still leave an output
title that is shorter than three characters or digits-only. -/
theorem claim7_amended (t : Option String) (s : String)
    (h : finalTitleFilter t = some s) (hs : s ≠ "") :
    t = some s ∧ digitsOnly (stripFilterChars s.data) = false ∧
      3 ≤ (pyStripL s.data).length := by
  cases t with
  | none => cases h
  | some v =>
    have h2 : (if v ≠ "" then
        (if (digitsOnly (stripFilterChars v.data) ||
              decide ((pyStripL v.data).length < 3)) = true then none else some v)
        else some v) = some s := h
    split_ifs at h2 with hv hc
    · injection h2 with hvs
      subst hvs
      simp only [Bool.or_eq_true, decide_eq_true_eq, not_or] at hc
      obtain ⟨hc1, hc2⟩ := hc
      exact ⟨rfl, by simpa using hc1, by omega⟩
    · injection h2 with hvs
      subst hvs
      simp only [ne_eq, not_not] at hv
      exact absurd hv hs

/-- Witness for claim C7 as amended at a concrete surviving title. -/
theorem claim7_witness :
    (some "Widget" : Option String) = some "Widget" ∧
    digitsOnly (stripFilterChars "Widget".data) = false ∧
    3 ≤ (pyStripL "Widget".data).length :=
  claim7_amended (some "Widget") "Widget" rfl (by decide)

/-- A non-space member of a list survives the Python strip. -/
theorem mem_pyStripL {a : Char} {l : List Char} (ha : a ∈ l)
    (hs : pySpace a = false) : a ∈ pyStripL l := by
  have step : ∀ m : List Char, a ∈ m → a ∈ m.dropWhile pySpace := by
    intro m hm
    have hsplit := List.takeWhile_append_dropWhile pySpace m
    rw [← hsplit] at hm
    rcases List.mem_append.1 hm with h1 | h2
    · have := List.mem_takeWhile_imp h1
      rw [hs] at this
      cases this
    · exact h2
  unfold pyStripL
  exact List.mem_reverse.2 (step _ (List.mem_reverse.2 (step _ ha)))

/-- Two distinct members force length at least two. -/
theorem two_mem_length {a b : Char} {l : List Char} (ha : a ∈ l) (hb : b ∈ l)
    (hne : a ≠ b) : 2 ≤ l.length := by
  match l with
  | [] => cases ha
  | [x] =>
    rw [List.mem_singleton] at ha hb
    exact absurd (ha.trans hb.symm) hne
  | x :: y :: rest =>
    simp only [List.length_cons]
    omega

/-- A currency glyph is not a digit. -/
theorem currency_ne_digit {c d : Char} (hc : currencyChar c = true)
    (hd : pyDigit d = true) : c ≠ d := by
  intro he
  subst he
  simp only [currencyChar, Bool.or_eq_true, decide_eq_true_eq] at hc
  rcases hc with (h | h) | h <;> subst h <;> exact absurd hd (by decide)

/-- A currency glyph is not whitespace. -/
theorem currency_not_space {c : Char} (hc : currencyChar c = true) :
    pySpace c = false := by
  simp only [currencyChar, Bool.or_eq_true, decide_eq_true_eq] at hc
  rcases hc with (h | h) | h <;> subst h <;> decide

/-- A digit is not whitespace. -/
theorem digit_not_space {d : Char} (hd : pyDigit d = true) : pySpace d = false := by
  cases hps : pySpace d
  · rfl
  · exfalso
    simp only [pySpace, Bool.or_eq_true, decide_eq_true_eq] at hps
    rcases hps with ((((h | h) | h) | h) | h) | h <;> subst h <;>
      exact absurd hd (by decide)

/-- The digit-run matcher yields a digit-headed match. -/
theorem matchDigitsAt_shape {l : List Char} {x : List Char × List Char}
    (h : matchDigitsAt l = some x) :
    ∃ d tw, x.1 = d :: tw ∧ pyDigit d = true := by
  cases l with
  | nil => cases h
  | cons c cs =>
    simp only [matchDigitsAt] at h
    by_cases hd : pyDigit c = true
    · rw [if_pos hd] at h
      injection h with hp
      subst hp
      exact ⟨c, _, rfl, hd⟩
    · rw [if_neg hd] at h
      cases h

/-- A currency-mandatory price match holds a currency glyph and a digit. -/
theorem matchPriceManAt_shape {l : List Char} {x : List Char × List Char}
    (h : matchPriceManAt l = some x) :
    ∃ c d, c ∈ x.1 ∧ d ∈ x.1 ∧ currencyChar c = true ∧ pyDigit d = true := by
  match l with
  | [] => cases h
  | [c] => cases h
  | c :: d :: ds =>
    simp only [matchPriceManAt] at h
    by_cases hc : currencyChar c = true
    · rw [if_pos hc] at h
      by_cases hsp : pySpace d = true
      · rw [if_pos hsp] at h
        cases hmd : matchDigitsAt ds with
        | none => rw [hmd, Option.map_none'] at h; cases h
        | some y =>
          rw [hmd, Option.map_some'] at h
          injection h with hp
          subst hp
          obtain ⟨e, tw, hy, he⟩ := matchDigitsAt_shape hmd
          refine ⟨c, e, List.mem_cons_self _ _, ?_, hc, he⟩
          simp [hy]
      · rw [if_neg hsp] at h
        cases hmd : matchDigitsAt (d :: ds) with
        | none => rw [hmd, Option.map_none'] at h; cases h
        | some y =>
          rw [hmd, Option.map_some'] at h
          injection h with hp
          subst hp
          obtain ⟨e, tw, hy, he⟩ := matchDigitsAt_shape hmd
          refine ⟨c, e, List.mem_cons_self _ _, ?_, hc, he⟩
          simp [hy]
    · rw [if_neg hc] at h
      cases h

/-- Any match found by searching for the currency-mandatory pattern
holds a currency glyph and a digit. -/
theorem searchSplit_man_shape :
    ∀ (l : List Char) (r : List Char × List Char × List Char),
      searchSplit matchPriceManAt l = some r →
      ∃ c d, c ∈ r.2.1 ∧ d ∈ r.2.1 ∧ currencyChar c = true ∧ pyDigit d = true := by
  intro l
  induction l with
  | nil =>
    intro r h
    simp [searchSplit, matchPriceManAt] at h
  | cons c cs ih =>
    intro r h
    simp only [searchSplit] at h
    cases hm : matchPriceManAt (c :: cs) with
    | some m =>
      rw [hm] at h
      injection h with hp
      subst hp
      exact matchPriceManAt_shape hm
    | none =>
      rw [hm] at h
      cases hs2 : searchSplit matchPriceManAt cs with
      | none => rw [hs2] at h; cases h
      | some r2 =>
        rw [hs2] at h
        injection h with hp
        subst hp
        exact ih r2 hs2

/-- A stripped currency-mandatory match is at least two characters long. -/
theorem man_match_strip_long {m : List Char}
    (hm : ∃ c d, c ∈ m ∧ d ∈ m ∧ currencyChar c = true ∧ pyDigit d = true) :
    2 ≤ (pyStripL (pyStripL m)).length := by
  obtain ⟨c, d, hcm, hdm, hc, hd⟩ := hm
  have hc1 : c ∈ pyStripL (pyStripL m) :=
    mem_pyStripL (mem_pyStripL hcm (currency_not_space hc)) (currency_not_space hc)
  have hd1 : d ∈ pyStripL (pyStripL m) :=
    mem_pyStripL (mem_pyStripL hdm (digit_not_space hd)) (digit_not_space hd)
  exact two_mem_length hc1 hd1 (currency_ne_digit hc hd)

/-- The single-digit filter's output never strips to a single digit. -/
theorem singleDigitFilter_ok (q : Option String) :
    ∀ s, singleDigitFilter q = some s →
      ¬((pyStripL s.data).length = 1 ∧ digitsOnly (pyStripL s.data) = true) := by
  intro s h
  cases q with
  | none => cases h
  | some v =>
    have h2 : (if (v ≠ "" && decide ((pyStripL v.data).length = 1) &&
        digitsOnly (pyStripL v.data)) = true then none else some v) = some s := h
    split_ifs at h2 with hcond
    injection h2 with hvs
    subst hvs
    intro ⟨h1, hdig⟩
    apply hcond
    have hv : ¬v = "" := by
      intro he
      subst he
      simp [pyStripL] at h1
    simp [hv, h1, hdig]

/-- The title-to-price move step preserves the single-digit property of
the price: it either keeps the incoming price or installs a stripped
currency-mandatory match, which is at least two characters long. -/
theorem movePrice_price_ok (t p : Option String)
    (hp : ∀ s, p = some s →
      ¬((pyStripL s.data).length = 1 ∧ digitsOnly (pyStripL s.data) = true)) :
    ∀ s, (movePriceFromTitle t p).2 = some s →
      ¬((pyStripL s.data).length = 1 ∧ digitsOnly (pyStripL s.data) = true) := by
  intro s h
  cases t with
  | none => exact hp s h
  | some v =>
    simp only [movePriceFromTitle] at h
    by_cases hg : (v ≠ "" && !truthyOpt p) = true
    · rw [if_pos hg] at h
      unfold movePriceCore at h
      cases hm : searchSplit matchPriceManAt v.data with
      | none =>
        simp only [hm] at h
        exact hp s h
      | some m =>
        simp only [hm] at h
        by_cases hb : manBoundaryOk m = true
        · rw [if_pos hb] at h
          injection h with hs2
          subst hs2
          intro ⟨h1, _⟩
          have := man_match_strip_long (searchSplit_man_shape v.data m hm)
          rw [show (String.mk (pyStripL m.2.1)).data = pyStripL m.2.1 from rfl] at h1
          omega
        · rw [if_neg hb] at h
          exact hp s h
    · rw [if_neg hg] at h
      exact hp s h

/-- Claim C8: no output record's price is a single bare digit — the
stripped price is never a one-character digit string. -/
theorem claim8_theorem (root : Node) (base : String) (sel : Sel)
    (sid : Option String) (r : DealItem)
    (h : r ∈ extract_items root base sel sid) (p : String)
    (hp : r.price = some p) :
    ¬((pyStripL p.data).length = 1 ∧ digitsOnly (pyStripL p.data) = true) := by
  rcases mem_extract root base sel sid r h with ⟨n, _, heq, _⟩
  rw [heq] at hp
  have hform : (perNodeItem base sid n).price =
      (movePriceFromTitle (titleAfterPrefixes (finalTitleFilter (rawTitle n sid)))
        (singleDigitFilter (price0 n sid))).2 := rfl
  rw [hform] at hp
  exact movePrice_price_ok _ _ (singleDigitFilter_ok _) p hp

/-- Witness for claim C8 at a concrete record: the "₪55" price of the
two-item zuzu document is not a single bare digit. -/
theorem claim8_witness :
    ¬((pyStripL "₪55".data).length = 1 ∧ digitsOnly (pyStripL "₪55".data) = true) :=
  claim8_theorem priceOnlyTree "https://zuzu.deals/" selColItem (some "zuzu")
    ⟨some "", none, some "₪55", none⟩ (by decide) "₪55" rfl

/-- Counterexample to claim C1: the beedeals link strategies resolve
with external hosts allowed (app.py lines 552, 559, 572), so a
`.pinPrice` anchor pointing at evil.example yields an output link whose
host is not in the allowlist. -/
theorem claim1_counterexample :
    extract_items beeExtTree "https://il.bee.deals/dashboard" selPinItem
      (some "beedeals") =
      [⟨some "Cool gadget", some "https://evil.example/x", some "₪30", none⟩] ∧
    is_allowed_host "https://evil.example/x" = false :=
  ⟨rfl, rfl⟩

/-- Claim C1 as amended: for every source variant other than beedeals, a
non-null output link has a host in the fixed allowlist — the generic
link path resolves with external hosts not permitted; the beedeals
variant resolves its link with external hosts allowed and can emit a
link on a foreign host. -/
theorem claim1_amended (root : Node) (base : String) (sel : Sel)
    (sid : Option String) (hsid : sid ≠ some "beedeals") (r : DealItem)
    (h : r ∈ extract_items root base sel sid) (u : String)
    (hu : r.link = some u) : is_allowed_host u = true := by
  rcases mem_extract root base sel sid r h with ⟨n, _, heq, _⟩
  rw [heq] at hu
  have hform : (perNodeItem base sid n).link = linkOf n base sid := rfl
  rw [hform] at hu
  unfold linkOf at hu
  rw [if_neg hsid] at hu
  simp only [truthyOpt, Bool.not_false, if_true] at hu
  cases hfd : findDesc n (fun d => d.tagOf = some "a" && (d.getAttr "href").isSome) with
  | none =>
    simp only [hfd] at hu
    cases hu
  | some a =>
    simp only [hfd] at hu
    exact resolve_url_false_allowed base _ u hu

/-- Witness for claim C1 as amended at a concrete zuzu document. -/
theorem claim1_witness : is_allowed_host "https://zuzu.deals/p1" = true :=
  claim1_amended dupLinkTree "https://zuzu.deals/" selColItem (some "zuzu")
    (by decide) ⟨some "First item", some "https://zuzu.deals/p1", none, none⟩
    (by decide) "https://zuzu.deals/p1" rfl

/-- The scheme prefix (with its colon) that `urljoinL` copies from the
base URL. -/
def schemePreOf (bt : List Char) : List Char :=
  match splitScheme bt with
  | some sr => sr.1 ++ [':']
  | none => []

/-- Every result of `urljoinL` is either the reference itself or the
base's scheme prefix followed by something. -/
theorem urljoinL_pre (bt rel : List Char) :
    urljoinL bt rel = rel ∨
    ∃ suffix, urljoinL bt rel = schemePreOf bt ++ suffix := by
  unfold urljoinL
  by_cases hsr : (splitScheme rel).isSome = true
  · rw [if_pos hsr]
    exact Or.inl rfl
  · rw [if_neg hsr]
    right
    unfold schemePreOf
    cases hsb : splitScheme bt with
    | none =>
      simp only [hsb]
      exact ⟨_, (List.nil_append _).symm⟩
    | some sr =>
      simp only [hsb]
      split
      · exact ⟨_, rfl⟩
      · exact ⟨_, List.append_assoc _ _ _⟩
      · exact ⟨_, (List.append_assoc _ _ _).trans (List.append_assoc _ _ _)⟩

/-- Joining a non-`data:` reference against an http(s) base never
produces a `data:` URL. -/
theorem urljoinL_not_data (bt rel : List Char)
    (hb : (∃ t, bt = "http://".data ++ t) ∨ (∃ t, bt = "https://".data ++ t))
    (hr : List.isPrefixOf "data:".data rel = false) :
    List.isPrefixOf "data:".data (urljoinL bt rel) = false := by
  rcases urljoinL_pre bt rel with he | ⟨suffix, he⟩
  · rw [he]; exact hr
  · rw [he]
    rcases hb with ⟨t, hbt⟩ | ⟨t, hbt⟩ <;> subst hbt
    · rw [show schemePreOf ("http://".data ++ t) = "http:".data from rfl]
      rfl
    · rw [show schemePreOf ("https://".data ++ t) = "https:".data from rfl]
      rfl

/-- An http(s) prefix hypothesis on a string, in list form. -/
theorem http_base_data {base : String}
    (hb : strStarts base "http://" = true ∨ strStarts base "https://" = true) :
    (∃ t, base.data = "http://".data ++ t) ∨
    (∃ t, base.data = "https://".data ++ t) := by
  rcases hb with hb | hb
  · left
    obtain ⟨t, ht⟩ := List.isPrefixOf_iff_prefix.mp hb
    exact ⟨t, ht.symm⟩
  · right
    obtain ⟨t, ht⟩ := List.isPrefixOf_iff_prefix.mp hb
    exact ⟨t, ht.symm⟩

/-- Resolving a non-`data:` href with external hosts allowed against an
http(s) base never yields a `data:` URL. -/
theorem resolve_true_not_data (base v u : String)
    (hb : strStarts base "http://" = true ∨ strStarts base "https://" = true)
    (hv : strStarts v "data:" = false)
    (h : resolve_url base v true = some u) :
    strStarts u "data:" = false := by
  unfold resolve_url at h
  by_cases h0 : v = ""
  · rw [if_pos h0] at h; cases h
  · rw [if_neg h0] at h
    by_cases h1 : (strStarts v "http://" || strStarts v "https://") = true
    · rw [if_pos h1] at h
      simp only [if_true] at h
      injection h with hu
      subst hu
      exact hv
    · rw [if_neg h1] at h
      simp only [if_true] at h
      injection h with hu
      subst hu
      exact urljoinL_not_data base.data v.data (http_base_data hb) hv

/-- The guarded attribute-resolution pattern never yields a `data:` URL
over an http(s) base: the guard has already rejected `data:` sources. -/
theorem guarded_not_data (base : String) (src : Option String) (u : String)
    (hb : strStarts base "http://" = true ∨ strStarts base "https://" = true)
    (h : guardedSrc base src = some u) :
    strStarts u "data:" = false := by
  unfold guardedSrc at h
  by_cases hg : srcOk src = true
  · rw [if_pos hg] at h
    cases src with
    | none => simp [srcOk] at hg
    | some v =>
      refine resolve_true_not_data base v u hb ?_ h
      have h2 : ((v ≠ "" && pyStrip v ≠ "") && !strStarts v "data:") = true := hg
      simp only [Bool.and_eq_true, Bool.not_eq_true'] at h2
      exact h2.2
  · rw [if_neg hg] at h
    cases h

/-- The deal4real image extraction never yields a `data:` URL over an
http(s) base. -/
theorem d4rImage_not_data (node : LNode) (base u : String)
    (hb : strStarts base "http://" = true ∨ strStarts base "https://" = true)
    (h : d4rImage node base = some u) : strStarts u "data:" = false := by
  simp only [d4rImage] at h
  split at h
  · cases h
  · split at h
    · cases h
    · exact guarded_not_data base _ u hb h

/-- The beedeals image extraction never yields a `data:` URL over an
http(s) base. -/
theorem beeImage_not_data (node : LNode) (base u : String)
    (hb : strStarts base "http://" = true ∨ strStarts base "https://" = true)
    (h : beeImage node base = some u) : strStarts u "data:" = false := by
  simp only [beeImage] at h
  split at h
  · cases h
  · split at h
    · cases h
    · exact guarded_not_data base _ u hb h

/-- The srcset fallback never yields a `data:` URL over an http(s) base
when the incoming image cannot either: its guard rejects `data:`
values. -/
theorem srcsetImage_not_data (img : Node) (base u : String) (i1 : Option String)
    (hb : strStarts base "http://" = true ∨ strStarts base "https://" = true)
    (hprev : i1 = some u → strStarts u "data:" = false)
    (h : srcsetImage img base i1 = some u) : strStarts u "data:" = false := by
  simp only [srcsetImage] at h
  split at h
  · split at h
    · exact hprev h
    · split at h
      · split at h
        · rename_i hguard
          simp only [Bool.and_eq_true, Bool.not_eq_true'] at hguard
          exact resolve_true_not_data base _ u hb hguard.1 h
        · exact hprev h
      · exact hprev h
  · exact hprev h

/-- The zuzu/buywithus image extraction never yields a `data:` URL over
an http(s) base: the attribute path and the srcset path both reject
`data:` sources. -/
theorem zbImage_not_data (node : LNode) (base u : String)
    (hb : strStarts base "http://" = true ∨ strStarts base "https://" = true)
    (h : zbImage node base = some u) : strStarts u "data:" = false := by
  simp only [zbImage] at h
  split at h
  · cases h
  · split at h
    · cases h
    · split at h
      · cases h
      · split at h
        · exact srcsetImage_not_data _ base u _ hb
            (fun hp => guarded_not_data base _ u hb hp) h
        · exact guarded_not_data base _ u hb h

/-- The ancestor image search never yields a `data:` URL over an http(s)
base. -/
theorem ancestorImage_not_data (node : LNode) (base u : String)
    (hb : strStarts base "http://" = true ∨ strStarts base "https://" = true)
    (h : ancestorImage node base = some u) : strStarts u "data:" = false := by
  unfold ancestorImage at h
  have hmem := List.mem_of_mem_head? (Option.mem_def.mpr h)
  rcases List.mem_filterMap.mp hmem with ⟨par, _, hf⟩
  split at hf
  · exact guarded_not_data base _ u hb hf
  · cases hf

/-- The generic image fallback either went through the guarded attribute
path or through the background-image branch of the node's first image. -/
theorem genericImage_cases (node : LNode) (base u : String)
    (h : genericImage node base = some u) :
    ∃ img, findDesc node (fun d => d.tagOf = some "img") = some img ∧
      (guardedSrc base (firstAttr img ["src", "data-src", "data-lazy-src"]) = some u ∨
       bgImage img base = some u) := by
  simp only [genericImage] at h
  split at h
  · cases h
  · rename_i img hfind
    split at h
    · split at h
      · rename_i v hbg
        injection h with hvu
        subst hvu
        exact ⟨img, hfind, Or.inr hbg⟩
      · exact ⟨img, hfind, Or.inl h⟩
    · exact ⟨img, hfind, Or.inl h⟩

/-- A chain step of the image fallback: the running image is either the
new producer's value or the previous value. -/
theorem orElse_chain (prev f : Option String) (g : Bool) (u : String)
    (h : (if g = true then imageStep f prev else prev) = some u) :
    f = some u ∨ prev = some u := by
  by_cases hg : g = true
  · rw [if_pos hg] at h
    unfold imageStep at h
    cases hf : f with
    | some v =>
      left
      rw [hf] at h
      exact h
    | none =>
      right
      rw [hf] at h
      exact h
  · rw [if_neg hg] at h
    exact Or.inr h

/-- A guarded head of the image fallback chain. -/
theorem ifNone_chain {α : Type} (c : Prop) [Decidable c] (x : Option α) (u : α)
    (h : (if c then x else none) = some u) : x = some u := by
  by_cases hc : c
  · rwa [if_pos hc] at h
  · rw [if_neg hc] at h
    cases h

/-- The image of a node comes from one of the five extraction blocks. -/
theorem imageOf_cases (node : LNode) (base : String) (sid : Option String)
    (u : String) (h : imageOf node base sid = some u) :
    d4rImage node base = some u ∨ beeImage node base = some u ∨
    zbImage node base = some u ∨ genericImage node base = some u ∨
    ancestorImage node base = some u := by
  simp only [imageOf] at h
  rcases orElse_chain _ _ _ _ h with h5 | h4
  · exact Or.inr (Or.inr (Or.inr (Or.inr h5)))
  rcases orElse_chain _ _ _ _ h4 with hg | h3
  · exact Or.inr (Or.inr (Or.inr (Or.inl hg)))
  rcases orElse_chain _ _ _ _ h3 with hz | h2
  · exact Or.inr (Or.inr (Or.inl hz))
  rcases orElse_chain _ _ _ _ h2 with hbe | h1
  · exact Or.inr (Or.inl hbe)
  exact Or.inl (ifNone_chain _ _ u h1)

/-- Counterexample to claim C9: the CSS background-image fallback
(app.py lines 526-530) performs no data-URI check, so markup whose only
image is a `data:` background-image yields an output record whose image
field begins with `data:`. -/
theorem claim9_counterexample :
    extract_items bgDataTree "https://zuzu.deals/" selColItem (some "zuzu") =
      [⟨some "Widget", none, none, some "data:image/png;base64,AAAA"⟩] ∧
    strStarts "data:image/png;base64,AAAA" "data:" = true :=
  ⟨rfl, rfl⟩

/-- Claim C9 as amended: over an http(s) base URL, every image produced
by the attribute paths — the source-specific extractions, the generic
attribute chain, the srcset fallback, and the ancestor search — never
begins with `data:`; only the CSS background-image fallback, which
performs no check, can emit a `data:` image, so any `data:` image in the
output was produced by that branch on some selected node's first
image. -/
theorem claim9_amended (root : Node) (base : String) (sel : Sel)
    (sid : Option String)
    (hb : strStarts base "http://" = true ∨ strStarts base "https://" = true)
    (r : DealItem) (h : r ∈ extract_items root base sel sid) (u : String)
    (hu : r.image = some u) (hdata : strStarts u "data:" = true) :
    ∃ n ∈ select (root, ([] : List Node)) sel, ∃ img,
      findDesc n (fun d => d.tagOf = some "img") = some img ∧
      bgImage img base = some u := by
  rcases mem_extract root base sel sid r h with ⟨n, hn, heq, _⟩
  rw [heq] at hu
  have hform : (perNodeItem base sid n).image = imageOf n base sid := rfl
  rw [hform] at hu
  rcases imageOf_cases n base sid u hu with h1 | h2 | h3 | h4 | h5
  · cases (d4rImage_not_data n base u hb h1).symm.trans hdata
  · cases (beeImage_not_data n base u hb h2).symm.trans hdata
  · cases (zbImage_not_data n base u hb h3).symm.trans hdata
  · rcases genericImage_cases n base u h4 with ⟨img, hfind, hattr | hbg⟩
    · cases (guarded_not_data base _ u hb hattr).symm.trans hdata
    · exact ⟨n, hn, img, hfind, hbg⟩
  · cases (ancestorImage_not_data n base u hb h5).symm.trans hdata

/-- Witness for claim C9 as amended, at the background-image document:
the `data:` image is traced to the background-image branch. -/
theorem claim9_witness :
    ∃ n ∈ select (bgDataTree, ([] : List Node)) selColItem, ∃ img,
      findDesc n (fun d => d.tagOf = some "img") = some img ∧
      bgImage img "https://zuzu.deals/" = some "data:image/png;base64,AAAA" :=
  claim9_amended bgDataTree "https://zuzu.deals/" selColItem (some "zuzu")
    (Or.inr rfl)
    ⟨some "Widget", none, none, some "data:image/png;base64,AAAA"⟩
    (by decide) "data:image/png;base64,AAAA" rfl rfl

end Deals
